import Mathlib

/-!
# PPU register and bus layer of nesemu2 (`source/nes/ppu/io.c`)

A shallow embedding of `read_ppu_memory`, `write_ppu_memory`, `ppu_pal_read`,
`ppu_pal_write`, `ppu_read` and `ppu_write`.

Conventions of the embedding.

* The global record `nes.ppu` and the two bus slots `ppu_memread` /
  `ppu_memwrite` become one value of type `Ppu`, passed explicitly.
* Machine integers are natural numbers.  `u8` fields hold values below 256.
  The record is declared in a header outside `io.c`; the scroll registers
  `scroll` / `tmpscroll` are taken as unsigned 32-bit words, so the C
  complement `~m` is `0xFFFFFFFF ^^^ m` (`bnot32`) and `+=` wraps modulo
  `2 ^ 32`.  On values below `2 ^ 16` the register operations give the same
  stored results as a 16-bit declaration would.
* Pointers are addresses into one flat byte memory `mem`; the null pointer
  is `0`.  Cache pointers are addresses into `cachemem`, one decoded tile per
  destination address.
* Calls into code outside `io.c` (`cpu_set_nmi`, `cpu_clear_nmi`,
  `video_updatepalette`, page handlers, installed bus interceptors, the log)
  are recorded, in order, in `trace`.
-/

namespace Nesemu2

/-- Calls that leave `io.c`, in the order in which they are made. -/
inductive Event where
  | cpu_set_nmi
  | cpu_clear_nmi
  | video_updatepalette (addr data : Nat)
  | memread (addr : Nat)
  | memwrite (addr data : Nat)
  | readfunc (page addr : Nat)
  | writefunc (page addr data : Nat)
  | cache_tile (src dst : Nat)
  | cache_tile_hflip (src dst : Nat)
  | log_read (addr : Nat)
  | log_write (addr data : Nat)
  deriving DecidableEq, Repr

/-- A decoded tile: eight rows of eight 2-bit pixel indices. -/
abbrev Tile := List (List Nat)

/-- The record `nes.ppu` together with the globals `io.c` uses. -/
structure Ppu where
  /-- Register `CONTROL0` (u8). -/
  control0 : Nat
  /-- Register `CONTROL1` (u8). -/
  control1 : Nat
  /-- Register `STATUS` (u8). -/
  status : Nat
  /-- Sprite memory address `nes.ppu.oamaddr` (u8). -/
  oamaddr : Nat
  /-- Sprite memory `nes.ppu.oam[256]`. -/
  oam : Nat → Nat
  /-- Current scroll / VRAM address `SCROLL` (the spec's V). -/
  scroll : Nat
  /-- Temporary scroll `TMPSCROLL` (the spec's T). -/
  tmpscroll : Nat
  /-- Fine horizontal scroll `SCROLLX`. -/
  scrollx : Nat
  /-- Write toggle `TOGGLE`. -/
  toggle : Nat
  /-- Last value on the register bus, `nes.ppu.buf` (u8). -/
  buf : Nat
  /-- Read-ahead byte of register 7, `nes.ppu.latch` (u8). -/
  latch : Nat
  /-- Field `nes.ppu.busaddr`. -/
  busaddr : Nat
  /-- Palette RAM `nes.ppu.palette[32]`. -/
  palette : Nat → Nat
  /-- Timer signal `SCANLINE`. -/
  scanline : Nat
  /-- Timer signal `LINECYCLES`. -/
  linecycles : Nat
  /-- Table `nes.ppu.readpages[16]` of byte pointers (0 is null).  An index of
  16 or more stands for what lies behind the table. -/
  readpages : Nat → Nat
  /-- Table `nes.ppu.writepages[16]` of byte pointers (0 is null). -/
  writepages : Nat → Nat
  /-- Table `nes.ppu.readfuncs[16]` of read handlers (`none` is null).  An index
  of 16 or more stands for what lies behind the table. -/
  readfuncs : Nat → Option (Nat → Nat)
  /-- Table `nes.ppu.writefuncs[16]`: whether a write handler is installed. -/
  writefuncs : Nat → Bool
  /-- Table `nes.ppu.cachepages[16]` of cache pointers. -/
  cachepages : Nat → Nat
  /-- Table `nes.ppu.cachepages_hflip[16]` of cache pointers. -/
  cachepages_hflip : Nat → Nat
  /-- Slot `ppu_memread`: `none` is the built-in `read_ppu_memory`, `some f` an
  installed interceptor returning `f addr`. -/
  ppu_memread : Option (Nat → Nat)
  /-- Slot `ppu_memwrite`: `false` is the built-in `write_ppu_memory`, `true`
  an installed interceptor, whose effects lie outside this record. -/
  ppu_memwrite : Bool
  /-- The logger flag `log_unhandled_io`. -/
  log_unhandled : Bool
  /-- Byte memory the page pointers point into. -/
  mem : Nat → Nat
  /-- Tile-cache memory the cache pointers point into. -/
  cachemem : Nat → Tile
  /-- Calls made to code outside `io.c`. -/
  trace : List Event

/-- The C expression `~m` for an `int` constant `m`, as an unsigned 32-bit word. -/
def bnot32 (m : Nat) : Nat := 0xFFFFFFFF ^^^ m

/-- Bit `k` of `x` as 0 or 1. -/
def bit (x k : Nat) : Nat := (x >>> k) &&& 1

/-- The sixteen bytes `chr[0..15]` at the byte pointer `chr`. -/
def tile_bytes (mem : Nat → Nat) (chr : Nat) : List Nat :=
  (List.range 16).map (fun i => mem (chr + i))

/-- Modelled from the spec: `cache_tile` is declared outside `io.c`; section 3
gives `pix[r][c] = bit(plane0[r], 7-c) | (bit(plane1[r], 7-c) << 1)`, the two
planes being bytes `r` and `r + 8` of the 16-byte block. -/
def cache_tile (src : List Nat) : Tile :=
  (List.range 8).map (fun r => (List.range 8).map (fun c =>
    bit (src.getD r 0) (7 - c) ||| (bit (src.getD (r + 8) 0) (7 - c) <<< 1)))

/-- Modelled from the spec: `cache_tile_hflip` is declared outside `io.c`;
section 3 says the hflip variant uses column `c` instead of `7 - c`. -/
def cache_tile_hflip (src : List Nat) : Tile :=
  (List.range 8).map (fun r => (List.range 8).map (fun c =>
    bit (src.getD r 0) c ||| (bit (src.getD (r + 8) 0) c <<< 1)))

/-- Append one outgoing call to the trace. -/
def log_call (s : Ppu) (e : Event) : Ppu := { s with trace := s.trace ++ [e] }

/-- Source `read_ppu_memory` (io.c:28-37). -/
def read_ppu_memory (s : Ppu) (addr : Nat) : Nat × Ppu :=
  if s.readpages (addr >>> 10) ≠ 0 then
    (s.mem (s.readpages (addr >>> 10) + (addr &&& 0x3FF)), s)
  else
    match s.readfuncs (addr >>> 10) with
    | some f => (f addr % 256, log_call s (Event.readfunc (addr >>> 10) addr))
    | none =>
      if s.log_unhandled then (0, log_call s (Event.log_read addr)) else (0, s)

/-- Source `write_ppu_memory` (io.c:39-68). -/
def write_ppu_memory (s : Ppu) (addr data : Nat) : Ppu :=
  let page := ((addr >>> 10) &&& 0xF) % 256
  if s.writepages page ≠ 0 then
    let s1 := { s with mem := Function.update s.mem (s.writepages page + (addr &&& 0x3FF)) data }
    if addr < 0x2000 then
      let cache := s1.cachepages page
      let cache_hflip := s1.cachepages_hflip page
      let chr := s1.readpages page
      let a := addr &&& 0x3F0
      let t := cache_tile (tile_bytes s1.mem (chr + a))
      let s2 := { s1 with cachemem := Function.update s1.cachemem (cache + a / 8) t }
      let s3 := log_call s2 (Event.cache_tile (chr + a) (cache + a / 8))
      let th := cache_tile_hflip (tile_bytes s3.mem (chr + a))
      let s4 := { s3 with cachemem := Function.update s3.cachemem (cache_hflip + a / 8) th }
      log_call s4 (Event.cache_tile_hflip (chr + a) (cache_hflip + a / 8))
    else s1
  else if s.writefuncs page then
    log_call s (Event.writefunc page addr data)
  else if s.log_unhandled then
    log_call s (Event.log_write addr data)
  else s

/-- A call through the slot `ppu_memread`. -/
def call_memread (s : Ppu) (addr : Nat) : Nat × Ppu :=
  let s1 := log_call s (Event.memread addr)
  match s1.ppu_memread with
  | none => read_ppu_memory s1 addr
  | some f => (f addr % 256, s1)

/-- A call through the slot `ppu_memwrite`. -/
def call_memwrite (s : Ppu) (addr data : Nat) : Ppu :=
  let s1 := log_call s (Event.memwrite addr data)
  if s1.ppu_memwrite then s1 else write_ppu_memory s1 addr data

/-- Source `ppu_pal_read` (io.c:90-93). -/
def ppu_pal_read (s : Ppu) (addr : Nat) : Nat := s.palette addr

/-- Source `ppu_pal_write` (io.c:95-99). -/
def ppu_pal_write (s : Ppu) (addr data : Nat) : Ppu :=
  log_call { s with palette := Function.update s.palette addr data }
    (Event.video_updatepalette addr data)

/-- The increment of `SCROLL` shared by both register-7 paths (io.c:143-146, 214-217). -/
def scroll_inc (s : Ppu) : Ppu :=
  if s.control0 &&& 4 ≠ 0 then { s with scroll := (s.scroll + 32) % 2 ^ 32 }
  else { s with scroll := (s.scroll + 1) % 2 ^ 32 }

/-- Source `ppu_read` (io.c:101-150): the returned byte and the new state. -/
def ppu_read (s : Ppu) (addr : Nat) : Nat × Ppu :=
  let s' : Ppu :=
    if addr &&& 7 = 2 then
      let ret := (s.status &&& 0xE0) ||| (s.buf &&& 0x1F)
      let s1 := if ret &&& 0x80 ≠ 0 then { s with status := s.status &&& 0x60 } else s
      let r2 :=
        if s1.scanline = 241 then
          let r := if s1.linecycles = 1 then (ret &&& 0x7F, log_call s1 Event.cpu_clear_nmi)
                   else (ret, s1)
          if r.2.linecycles < 4 ∧ r.2.linecycles > 1 then (r.1, log_call r.2 Event.cpu_clear_nmi)
          else r
        else (ret, s1)
      { r2.2 with toggle := 0, buf := r2.1 }
    else if addr &&& 7 = 4 then
      { s with buf := s.oam s.oamaddr }
    else if addr &&& 7 = 7 then
      let s1 := { s with buf := s.latch }
      let s2 := { s1 with scroll := s1.scroll &&& 0x7FFF }
      let r := call_memread s2 s2.scroll
      let s3 : Ppu := { r.2 with latch := r.1 }
      let s4 := if s3.scroll &&& 0x3F00 = 0x3F00
                then { s3 with buf := ppu_pal_read s3 (s3.scroll &&& 0x1F) } else s3
      scroll_inc s4
    else s
  (s'.buf, s')

/-- The loop `for(i=0;i<8;i++) ppu_pal_write(i * 4,data)` (io.c:208-209), from `i`. -/
def pal_write_loop (data : Nat) : Nat → Nat → Ppu → Ppu
  | 0, _, s => s
  | n + 1, i, s => pal_write_loop data n (i + 1) (ppu_pal_write s (i * 4) data)

/-- Source `ppu_write` (io.c:152-221). -/
def ppu_write (s : Ppu) (addr data : Nat) : Ppu :=
  let s := { s with buf := data }
  if addr &&& 7 = 0 then
    let s1 := if s.status &&& 0x80 ≠ 0 ∧ data &&& 0x80 ≠ 0 ∧ s.control0 &&& 0x80 = 0
              then log_call s Event.cpu_set_nmi else s
    let s2 := if data &&& 0x80 = 0 ∧ s1.scanline = 241 ∧ s1.linecycles < 4
              then log_call s1 Event.cpu_clear_nmi else s1
    { s2 with control0 := data,
              tmpscroll := (s2.tmpscroll &&& 0x73FF) ||| ((data &&& 3) <<< 10) }
  else if addr &&& 7 = 1 then
    { s with control1 := data }
  else if addr &&& 7 = 3 then
    { s with oamaddr := data }
  else if addr &&& 7 = 4 then
    { s with oam := Function.update s.oam s.oamaddr data, oamaddr := (s.oamaddr + 1) % 256 }
  else if addr &&& 7 = 5 then
    if s.toggle = 0 then
      { s with tmpscroll := (s.tmpscroll &&& bnot32 0x001F) ||| (data >>> 3),
               scrollx := data &&& 7,
               toggle := 1 }
    else
      let s1 := { s with tmpscroll := s.tmpscroll &&& bnot32 0x73E0 }
      { s1 with tmpscroll := s1.tmpscroll ||| (((data &&& 0xF8) <<< 2) ||| ((data &&& 7) <<< 12)),
                toggle := 0 }
  else if addr &&& 7 = 6 then
    if s.toggle = 0 then
      { s with tmpscroll := (s.tmpscroll &&& bnot32 0xFF00) ||| ((data &&& 0x7F) <<< 8),
               toggle := 1 }
    else
      let t := (s.tmpscroll &&& bnot32 0x00FF) ||| data
      { s with tmpscroll := t, scroll := t, toggle := 0, busaddr := t }
  else if addr &&& 7 = 7 then
    let s1 :=
      if s.scroll < 0x3F00 then call_memwrite s s.scroll data
      else if s.scroll &&& 0x0F = 0 then pal_write_loop data 8 0 s
      else if s.scroll &&& 3 ≠ 0 then ppu_pal_write s (s.scroll &&& 0x1F) data
      else s
    let s2 := scroll_inc s1
    { s2 with scroll := s2.scroll &&& 0x7FFF }
  else s

/-- One CPU access to the register file. -/
inductive Access where
  | read (addr : Nat)
  | write (addr data : Nat)
  deriving DecidableEq, Repr

/-- Perform one access, dropping the byte a read returns. -/
def step (s : Ppu) : Access → Ppu
  | Access.read a => (ppu_read s a).2
  | Access.write a d => ppu_write s a d

/-- Perform a sequence of accesses, left to right. -/
def run (s : Ppu) (l : List Access) : Ppu := l.foldl step s

/-- An all-zero PPU record: nothing mapped, built-in bus routines in the slots. -/
def ppu_zero : Ppu where
  control0 := 0
  control1 := 0
  status := 0
  oamaddr := 0
  oam := fun _ => 0
  scroll := 0
  tmpscroll := 0
  scrollx := 0
  toggle := 0
  buf := 0
  latch := 0
  busaddr := 0
  palette := fun _ => 0
  scanline := 0
  linecycles := 0
  readpages := fun _ => 0
  writepages := fun _ => 0
  readfuncs := fun _ => none
  writefuncs := fun _ => false
  cachepages := fun _ => 0
  cachepages_hflip := fun _ => 0
  ppu_memread := none
  ppu_memwrite := false
  log_unhandled := false
  mem := fun _ => 0
  cachemem := fun _ => []
  trace := []

/-- The zero state with NMI enabled and the VBlank flag set, at scanline 241,
line-cycle 1. -/
def vblank_start : Ppu :=
  { ppu_zero with control0 := 0x80, status := 0x80, scanline := 241, linecycles := 1 }

/-- The zero state with V at the first palette address. -/
def palette_base : Ppu := { ppu_zero with scroll := 0x3F00 }

/-- A CPU write to the scroll register (offset 5) or the VRAM-address register
(offset 6) carrying a byte. -/
def is_latch_write : Access → Bool
  | Access.write a d => (a == 5 || a == 6) && decide (d < 256)
  | Access.read _ => false

/-- The stride of the data port: 32 if `CONTROL0 & 4` is set, 1 otherwise. -/
def stride (s : Ppu) : Nat := if s.control0 &&& 4 ≠ 0 then 32 else 1

/-- An access to the data port, register 7. -/
def is_data_access : Access → Bool
  | Access.read a => a == 7
  | Access.write a _ => a == 7

/-- The state at the last 15-bit address, `V = 0x7FFF`, stride 1. -/
def scroll_top : Ppu := { ppu_zero with scroll := 0x7FFF }

/-- The five register writes of the read-after-write sequence: set V to
`addr`, write `D` through the data port, set V to `addr` again. -/
def write_then_rewind (addr D : Nat) : List Access :=
  [Access.write 6 (addr >>> 8), Access.write 6 (addr &&& 0xFF), Access.write 7 D,
   Access.write 6 (addr >>> 8), Access.write 6 (addr &&& 0xFF)]

/-- A state with 1KB of CHR-RAM at byte address 0x10000 mapped for reading and
writing at page 0, and distinct cache pages for the two tile orientations. -/
def chr_ram : Ppu :=
  { ppu_zero with
    readpages := fun p => if p = 0 then 0x10000 else 0,
    writepages := fun p => if p = 0 then 0x10000 else 0,
    cachepages := fun p => 0x100 + p * 0x80,
    cachepages_hflip := fun p => 0x1000 + p * 0x80 }

/-- A state with 1KB of nametable RAM at byte address 0x10000 mapped for
reading and writing at page 8, and 0x11 in the read-ahead byte. -/
def nametable_ram : Ppu :=
  { ppu_zero with
    readpages := fun p => if p = 8 then 0x10000 else 0,
    writepages := fun p => if p = 8 then 0x10000 else 0,
    latch := 0x11 }

/-- A state with V in the palette window (0x3F05), 0x2A in palette entry 5,
a mapped page 15 holding 0x77 at the underlying VRAM address, and stale bytes
in `buf` and `latch`. -/
def palette_peek : Ppu :=
  { ppu_zero with
    scroll := 0x3F05,
    buf := 0x11,
    latch := 0x22,
    palette := fun i => if i = 5 then 0x2A else 0,
    readpages := fun p => if p = 15 then 0x20000 else 0,
    mem := fun a => if a = 0x20305 then 0x77 else 0 }

/-- Page 0 mapped for reading and writing at byte address 0x10000, which holds
0x5A; V = 0x4000, the first address above the 14-bit bus. -/
def mirror_probe : Ppu :=
  { ppu_zero with
    scroll := 0x4000,
    readpages := fun p => if p = 0 then 0x10000 else 0,
    writepages := fun p => if p = 0 then 0x10000 else 0,
    mem := fun a => if a = 0x10000 then 0x5A else 0 }

/-- The zero state with a write handler installed on page 8. -/
def handler_page : Ppu := { ppu_zero with writefuncs := fun p => decide (p = 8) }

/-- The zero state with STATUS = 0xA0: VBlank (bit 7) and sprite overflow
(bit 5) set. -/
def overflow_status : Ppu := { ppu_zero with status := 0xA0 }

/-- The zero state with 0x22 in the read-ahead byte. -/
def stale_latch : Ppu := { ppu_zero with latch := 0x22 }

/-- The zero state with V = 0x4123, above the 14-bit bus, and page 0 mapped for
writing. -/
def above_bus : Ppu :=
  { ppu_zero with scroll := 0x4123, writepages := fun p => if p = 0 then 0x10000 else 0 }

/-! ## Bit-level facts -/

theorem testBit_false_of_lt {n k : Nat} (h : n < 2 ^ k) (i : Nat) (hi : k ≤ i) :
    n.testBit i = false :=
  Nat.testBit_lt_two_pow (lt_of_lt_of_le h (Nat.pow_le_pow_right (by norm_num) hi))

theorem mask_bit (m i : Nat) : Nat.testBit m i = decide (m / 2 ^ i % 2 = 1) :=
  Nat.testBit_to_div_mod

theorem scroll_bits (T0 d1 d2 : Nat) (hT : T0 < 0x8000) (h1 : d1 < 256) :
    ((((T0 &&& bnot32 0x1F) ||| (d1 >>> 3)) &&& bnot32 0x73E0) |||
        (((d2 &&& 0xF8) <<< 2) ||| ((d2 &&& 7) <<< 12))) =
      (T0 &&& 0x0C00) ||| (d1 >>> 3) ||| ((d2 &&& 0xF8) <<< 2) ||| ((d2 &&& 7) <<< 12) := by
  have hT' := testBit_false_of_lt (k := 15) hT
  have h1' := testBit_false_of_lt (k := 8) h1
  apply Nat.eq_of_testBit_eq
  intro i
  simp only [bnot32, Nat.testBit_or, Nat.testBit_and, Nat.testBit_shiftLeft,
    Nat.testBit_shiftRight]
  by_cases hi : i < 32
  · interval_cases i <;>
      simp [hT', h1', mask_bit 4294967264, mask_bit 4294937631, mask_bit 3072,
        mask_bit 248, mask_bit 7]
  · have hi' : 32 ≤ i := by omega
    have e : ∀ m : Nat, m < 2 ^ 32 → m.testBit i = false :=
      fun m hm => testBit_false_of_lt hm i hi'
    simp [hT' i (by omega), h1' (3 + i) (by omega), e]

theorem addr_bits (T0 hi lo : Nat) (hT : T0 < 0x10000) (hlo : lo < 256) :
    ((T0 &&& bnot32 0xFF00) ||| ((hi &&& 0x7F) <<< 8)) &&& bnot32 0x00FF ||| lo =
      ((hi &&& 0x7F) <<< 8) ||| lo := by
  have hT' := testBit_false_of_lt (k := 16) hT
  have h1' := testBit_false_of_lt (k := 8) hlo
  apply Nat.eq_of_testBit_eq
  intro i
  simp only [bnot32, Nat.testBit_or, Nat.testBit_and, Nat.testBit_shiftLeft,
    Nat.testBit_shiftRight]
  by_cases hi : i < 32
  · interval_cases i <;>
      simp [hT', h1', mask_bit 4294902015, mask_bit 4294967040, mask_bit 127]
  · have hi' : 32 ≤ i := by omega
    have e : ∀ m : Nat, m < 2 ^ 32 → m.testBit i = false :=
      fun m hm => testBit_false_of_lt hm i hi'
    have e7 : Nat.testBit 127 (i - 8) = false :=
      testBit_false_of_lt (k := 7) (by norm_num) (i - 8) (by omega)
    simp [hT' i (by omega), h1' i (by omega), e, e7]

theorem status_bit7 (x b : Nat) : ((x &&& 0xE0) ||| (b &&& 0x1F)) &&& 0x80 = x &&& 0x80 := by
  apply Nat.eq_of_testBit_eq
  intro i
  simp only [Nat.testBit_or, Nat.testBit_and]
  by_cases hi : i < 8
  · interval_cases i <;> simp [mask_bit 224, mask_bit 31, mask_bit 128]
  · have e : ∀ m : Nat, m < 2 ^ 8 → m.testBit i = false :=
      fun m hm => testBit_false_of_lt hm i (by omega)
    simp [e]

theorem status_bit7_masked (r : Nat) : (r &&& 0x7F) &&& 0x80 = 0 := by
  apply Nat.eq_of_testBit_eq
  intro i
  simp only [Nat.testBit_and]
  by_cases hi : i < 8
  · interval_cases i <;> simp [mask_bit 127, mask_bit 128]
  · have e : ∀ m : Nat, m < 2 ^ 8 → m.testBit i = false :=
      fun m hm => testBit_false_of_lt hm i (by omega)
    simp [e]

theorem status_clear_bit7 (x : Nat) : (x &&& 0x60) &&& 0x80 = 0 := by
  apply Nat.eq_of_testBit_eq
  intro i
  simp only [Nat.testBit_and]
  by_cases hi : i < 8
  · interval_cases i <;> simp [mask_bit 96, mask_bit 128]
  · have e : ∀ m : Nat, m < 2 ^ 8 → m.testBit i = false :=
      fun m hm => testBit_false_of_lt hm i (by omega)
    simp [e]

theorem low5_bits (T d : Nat) (hT : T < 2 ^ 32) (hd : d < 256) :
    ((T &&& bnot32 0x1F) ||| (d >>> 3)) % 32 = d >>> 3 ∧
    ((T &&& bnot32 0x1F) ||| (d >>> 3)) / 32 = T / 32 := by
  have hT' := testBit_false_of_lt (k := 32) hT
  have hd' := testBit_false_of_lt (k := 8) hd
  have hm : ∀ x : Nat, x % 32 = x &&& 31 := fun x =>
    (Nat.and_pow_two_sub_one_eq_mod x 5).symm
  have hq : ∀ x : Nat, x / 32 = x >>> 5 := fun x => (Nat.shiftRight_eq_div_pow x 5).symm
  rw [hm, hq, hq]
  constructor
  · apply Nat.eq_of_testBit_eq
    intro i
    simp only [bnot32, Nat.testBit_or, Nat.testBit_and, Nat.testBit_shiftRight]
    by_cases hi : i < 8
    · interval_cases i <;> simp [hd', mask_bit 4294967264, mask_bit 31]
    · have e : ∀ m : Nat, m < 2 ^ 8 → m.testBit i = false :=
        fun m hm => testBit_false_of_lt hm i (by omega)
      simp [e, hd' (3 + i) (by omega)]
  · apply Nat.eq_of_testBit_eq
    intro i
    simp only [bnot32, Nat.testBit_or, Nat.testBit_and, Nat.testBit_shiftRight]
    by_cases hi : i < 27
    · interval_cases i <;> simp [hd', mask_bit 4294967264]
    · have e : Nat.testBit 4294967264 (5 + i) = false :=
        testBit_false_of_lt (k := 32) (by norm_num) (5 + i) (by omega)
      simp [e, hT' (5 + i) (by omega), hd' (3 + (5 + i)) (by omega)]

theorem addr_recompose (addr : Nat) (h : addr < 0x8000) :
    (((addr >>> 8) &&& 0x7F) <<< 8) ||| (addr &&& 0xFF) = addr := by
  have h' := testBit_false_of_lt (k := 15) h
  apply Nat.eq_of_testBit_eq
  intro i
  simp only [Nat.testBit_or, Nat.testBit_and, Nat.testBit_shiftLeft, Nat.testBit_shiftRight]
  by_cases hi : i < 16
  · interval_cases i <;> simp [h', mask_bit 127, mask_bit 255]
  · have e : ∀ m : Nat, m < 2 ^ 8 → m.testBit i = false :=
      fun m hm => testBit_false_of_lt hm i (by omega)
    have e2 : addr.testBit (8 + (i - 8)) = false := h' _ (by omega)
    simp [e, e2, h' i (by omega)]

theorem and_7FFF_of_lt (v : Nat) (h : v < 0x8000) : v &&& 0x7FFF = v := by
  have := Nat.and_pow_two_sub_one_eq_mod v 15
  simp only [Nat.reducePow, Nat.add_one_sub_one] at this
  omega

theorem and_7FFF_and (v m : Nat) (hm : 0x7FFF &&& m = m) : (v &&& 0x7FFF) &&& m = v &&& m := by
  rw [Nat.and_assoc, hm]

theorem and_7FFF_mod (v : Nat) : v &&& 0x7FFF = v % 0x8000 :=
  Nat.and_pow_two_sub_one_eq_mod v 15

theorem page_index_u8 (addr : Nat) : ((addr >>> 10) &&& 0xF) % 256 = (addr >>> 10) &&& 0xF := by
  have : (addr >>> 10) &&& 0xF ≤ 0xF := Nat.and_le_right
  omega

theorem page_index_of_lt (addr : Nat) (h : addr < 0x4000) : (addr >>> 10) &&& 0xF = addr >>> 10 := by
  have h1 : (addr >>> 10) &&& 0xF = (addr >>> 10) % 16 :=
    Nat.and_pow_two_sub_one_eq_mod (addr >>> 10) 4
  have h2 : addr >>> 10 = addr / 1024 := Nat.shiftRight_eq_div_pow addr 10
  omega

/-! ## Dispatch on the register offset -/

theorem ppu_write_control0 (s : Ppu) (a d : Nat) (h : a &&& 7 = 0) :
    ppu_write s a d =
      { (if d &&& 0x80 = 0 ∧ s.scanline = 241 ∧ s.linecycles < 4
          then log_call (if s.status &&& 0x80 ≠ 0 ∧ d &&& 0x80 ≠ 0 ∧ s.control0 &&& 0x80 = 0
            then log_call { s with buf := d } Event.cpu_set_nmi else { s with buf := d })
            Event.cpu_clear_nmi
          else (if s.status &&& 0x80 ≠ 0 ∧ d &&& 0x80 ≠ 0 ∧ s.control0 &&& 0x80 = 0
            then log_call { s with buf := d } Event.cpu_set_nmi else { s with buf := d }))
        with control0 := d,
             tmpscroll := (s.tmpscroll &&& 0x73FF) ||| ((d &&& 3) <<< 10) } := by
  unfold ppu_write
  simp only [h, if_true]
  by_cases h1 : s.status &&& 0x80 ≠ 0 ∧ d &&& 0x80 ≠ 0 ∧ s.control0 &&& 0x80 = 0 <;>
    by_cases h2 : d &&& 0x80 = 0 ∧ s.scanline = 241 ∧ s.linecycles < 4 <;>
    simp [h1, h2, log_call]

theorem ppu_write_scroll (s : Ppu) (a d : Nat) (h : a &&& 7 = 5) :
    ppu_write s a d =
      if s.toggle = 0 then
        { s with buf := d,
                 tmpscroll := (s.tmpscroll &&& bnot32 0x001F) ||| (d >>> 3),
                 scrollx := d &&& 7,
                 toggle := 1 }
      else
        { s with buf := d,
                 tmpscroll := (s.tmpscroll &&& bnot32 0x73E0) |||
                   (((d &&& 0xF8) <<< 2) ||| ((d &&& 7) <<< 12)),
                 toggle := 0 } := by
  unfold ppu_write
  simp [h]

theorem ppu_write_addr (s : Ppu) (a d : Nat) (h : a &&& 7 = 6) :
    ppu_write s a d =
      if s.toggle = 0 then
        { s with buf := d,
                 tmpscroll := (s.tmpscroll &&& bnot32 0xFF00) ||| ((d &&& 0x7F) <<< 8),
                 toggle := 1 }
      else
        { s with buf := d,
                 tmpscroll := (s.tmpscroll &&& bnot32 0x00FF) ||| d,
                 scroll := (s.tmpscroll &&& bnot32 0x00FF) ||| d,
                 toggle := 0,
                 busaddr := (s.tmpscroll &&& bnot32 0x00FF) ||| d } := by
  unfold ppu_write
  simp [h]

theorem ppu_read_status (s : Ppu) (a : Nat) (h : a &&& 7 = 2) :
    (ppu_read s a).2.toggle = 0 ∧
    (ppu_read s a).2.status =
      (if ((s.status &&& 0xE0) ||| (s.buf &&& 0x1F)) &&& 0x80 ≠ 0
        then s.status &&& 0x60 else s.status) ∧
    (ppu_read s a).2.tmpscroll = s.tmpscroll ∧
    (ppu_read s a).1 =
      (if s.scanline = 241 ∧ s.linecycles = 1
        then ((s.status &&& 0xE0) ||| (s.buf &&& 0x1F)) &&& 0x7F
        else (s.status &&& 0xE0) ||| (s.buf &&& 0x1F)) ∧
    (ppu_read s a).2.trace =
      (if s.scanline = 241 ∧ 1 ≤ s.linecycles ∧ s.linecycles ≤ 3
        then s.trace ++ [Event.cpu_clear_nmi] else s.trace) := by
  unfold ppu_read
  simp only [h, if_true]
  by_cases hs : s.scanline = 241
  · by_cases h1 : s.linecycles = 1
    · split_ifs <;> simp_all [log_call]
    · by_cases h2 : s.linecycles < 4 ∧ s.linecycles > 1
      · have : 1 ≤ s.linecycles ∧ s.linecycles ≤ 3 := by omega
        split_ifs <;> simp_all [log_call]
      · have : ¬ (1 ≤ s.linecycles ∧ s.linecycles ≤ 3) := by omega
        split_ifs <;> simp_all [log_call]
  · split_ifs <;> simp_all [log_call]

/-! ## The write toggle and the temporary scroll word -/

theorem tmpscroll_bound_write (s : Ppu) (a d : Nat) (hT : s.tmpscroll < 2 ^ 32)
    (ha : a = 5 ∨ a = 6) (hd : d < 256) : (ppu_write s a d).tmpscroll < 2 ^ 32 := by
  have hand : ∀ m : Nat, s.tmpscroll &&& m < 2 ^ 32 := fun m =>
    lt_of_le_of_lt Nat.and_le_left hT
  have h3 : d >>> 3 < 2 ^ 32 := by
    rw [Nat.shiftRight_eq_div_pow]; omega
  have h7 : (d &&& 0x7F) <<< 8 < 2 ^ 32 := by
    have : d &&& 0x7F ≤ 0x7F := Nat.and_le_right
    rw [Nat.shiftLeft_eq]; omega
  have hF8 : (d &&& 0xF8) <<< 2 < 2 ^ 32 := by
    have : d &&& 0xF8 ≤ 0xF8 := Nat.and_le_right
    rw [Nat.shiftLeft_eq]; omega
  have h12 : (d &&& 7) <<< 12 < 2 ^ 32 := by
    have : d &&& 7 ≤ 7 := Nat.and_le_right
    rw [Nat.shiftLeft_eq]; omega
  have hd32 : d < 2 ^ 32 := by omega
  rcases ha with rfl | rfl
  · rw [ppu_write_scroll s 5 d (by decide)]
    split_ifs
    · exact Nat.or_lt_two_pow (hand _) h3
    · exact Nat.or_lt_two_pow (hand _) (Nat.or_lt_two_pow hF8 h12)
  · rw [ppu_write_addr s 6 d (by decide)]
    split_ifs
    · exact Nat.or_lt_two_pow (hand _) h7
    · exact Nat.or_lt_two_pow (hand _) hd32

theorem tmpscroll_bound_run (l : List Access) :
    ∀ s : Ppu, s.tmpscroll < 2 ^ 32 → (∀ x ∈ l, is_latch_write x = true) →
      (run s l).tmpscroll < 2 ^ 32 := by
  induction l with
  | nil => intro s hT _; simpa [run] using hT
  | cons x l ih =>
    intro s hT hl
    have hx := hl x (List.mem_cons_self _ _)
    have hrest : ∀ y ∈ l, is_latch_write y = true :=
      fun y hy => hl y (List.mem_cons_of_mem _ hy)
    cases x with
    | read a => simp [is_latch_write] at hx
    | write a d =>
      simp only [is_latch_write, Bool.and_eq_true, Bool.or_eq_true, beq_iff_eq,
        decide_eq_true_eq] at hx
      have hstep := tmpscroll_bound_write s a d hT hx.1 hx.2
      have := ih (ppu_write s a d) hstep hrest
      simpa [run, step] using this

/-! ## The data port -/

theorem call_memread_frame (s : Ppu) (a : Nat) :
    (call_memread s a).2 = { s with trace := (call_memread s a).2.trace } := by
  cases hm : s.ppu_memread <;> by_cases h1 : s.readpages (a >>> 10) = 0 <;>
    cases hf : s.readfuncs (a >>> 10) <;> cases hl : s.log_unhandled <;>
    simp [call_memread, read_ppu_memory, log_call, hm, h1, hf, hl]

theorem call_memread_val (s : Ppu) (a b v : Nat) :
    (call_memread { s with buf := b, scroll := v } a).1 = (call_memread s a).1 := by
  cases hm : s.ppu_memread <;> by_cases h1 : s.readpages (a >>> 10) = 0 <;>
    cases hf : s.readfuncs (a >>> 10) <;> cases hl : s.log_unhandled <;>
    simp [call_memread, read_ppu_memory, log_call, hm, h1, hf, hl]

theorem ppu_read_data (s : Ppu) (a : Nat) (h : a &&& 7 = 7) :
    (ppu_read s a).2 =
      { s with
        buf := if (s.scroll &&& 0x7FFF) &&& 0x3F00 = 0x3F00
                 then s.palette ((s.scroll &&& 0x7FFF) &&& 0x1F) else s.latch,
        latch := (call_memread s (s.scroll &&& 0x7FFF)).1,
        scroll := if s.control0 &&& 4 ≠ 0 then ((s.scroll &&& 0x7FFF) + 32) % 2 ^ 32
                    else ((s.scroll &&& 0x7FFF) + 1) % 2 ^ 32,
        trace := (call_memread { s with buf := s.latch, scroll := s.scroll &&& 0x7FFF }
                    (s.scroll &&& 0x7FFF)).2.trace } ∧
    (ppu_read s a).1 = (ppu_read s a).2.buf := by
  refine ⟨?_, rfl⟩
  unfold ppu_read
  simp only [h]
  rw [call_memread_frame]
  simp only [call_memread_val]
  simp [scroll_inc, ppu_pal_read]
  split_ifs <;> simp

theorem ppu_write_data (s : Ppu) (a d : Nat) (h : a &&& 7 = 7) :
    ppu_write s a d =
      { scroll_inc
          (if s.scroll < 0x3F00 then call_memwrite { s with buf := d } s.scroll d
           else if s.scroll &&& 0x0F = 0 then pal_write_loop d 8 0 { s with buf := d }
           else if s.scroll &&& 3 ≠ 0 then ppu_pal_write { s with buf := d } (s.scroll &&& 0x1F) d
           else { s with buf := d }) with
        scroll := (scroll_inc
          (if s.scroll < 0x3F00 then call_memwrite { s with buf := d } s.scroll d
           else if s.scroll &&& 0x0F = 0 then pal_write_loop d 8 0 { s with buf := d }
           else if s.scroll &&& 3 ≠ 0 then ppu_pal_write { s with buf := d } (s.scroll &&& 0x1F) d
           else { s with buf := d })).scroll &&& 0x7FFF } := by
  unfold ppu_write
  simp [h]

theorem scroll_inc_palette (s : Ppu) : (scroll_inc s).palette = s.palette := by
  unfold scroll_inc; split_ifs <;> rfl

theorem low_nibble_cases (v : Nat) :
    (v &&& 0x0F = 0 → v &&& 0x1F = 0 ∨ v &&& 0x1F = 0x10) ∧
    (v &&& 0x0F ≠ 0 → v &&& 3 = 0 → v &&& 0x1F ∈ [4, 8, 12, 0x14, 0x18, 0x1C]) := by
  have h4 : v &&& 0x0F = v % 16 := Nat.and_pow_two_sub_one_eq_mod v 4
  have h2 : v &&& 3 = v % 4 := Nat.and_pow_two_sub_one_eq_mod v 2
  have h5 : v &&& 0x1F = v % 32 := Nat.and_pow_two_sub_one_eq_mod v 5
  rw [h4, h2, h5]
  simp only [List.mem_cons, List.mem_singleton, List.not_mem_nil, or_false]
  omega

theorem ppu_pal_write_palette (s : Ppu) (a d : Nat) :
    (ppu_pal_write s a d).palette = Function.update s.palette a d := rfl

theorem pal_write_loop_palette (d : Nat) :
    ∀ (n i : Nat) (s : Ppu) (j : Nat),
      (pal_write_loop d n i s).palette j =
        if ∃ k, k < n ∧ j = (i + k) * 4 then d else s.palette j := by
  intro n
  induction n with
  | zero => intro i s j; simp [pal_write_loop]
  | succ n ih =>
    intro i s j
    rw [pal_write_loop, ih (i + 1) _ j, ppu_pal_write_palette, Function.update_apply]
    by_cases h1 : ∃ k, k < n ∧ j = (i + 1 + k) * 4
    · have h2 : ∃ k, k < n + 1 ∧ j = (i + k) * 4 := by
        obtain ⟨k, hk, hj⟩ := h1
        exact ⟨k + 1, by omega, by rw [hj]; ring⟩
      rw [if_pos h1, if_pos h2]
    · rw [if_neg h1]
      by_cases h3 : j = i * 4
      · have h2 : ∃ k, k < n + 1 ∧ j = (i + k) * 4 := ⟨0, by omega, by simpa using h3⟩
        rw [if_pos h3, if_pos h2]
      · have h2 : ¬ ∃ k, k < n + 1 ∧ j = (i + k) * 4 := by
          rintro ⟨k, hk, hj⟩
          rcases Nat.eq_zero_or_pos k with rfl | hpos
          · exact h3 (by simpa using hj)
          · exact h1 ⟨k - 1, by omega, by rw [hj]; congr 1; omega⟩
        rw [if_neg h3, if_neg h2]

theorem scroll_inc_regs (s : Ppu) :
    (scroll_inc s).scroll = (s.scroll + stride s) % 2 ^ 32 ∧
    (scroll_inc s).control0 = s.control0 := by
  unfold scroll_inc stride
  split_ifs <;> exact ⟨rfl, rfl⟩

theorem call_memwrite_frame (s : Ppu) (a d : Nat) :
    call_memwrite s a d =
      { s with
        mem := (call_memwrite s a d).mem,
        cachemem := (call_memwrite s a d).cachemem,
        trace := (call_memwrite s a d).trace } := by
  cases hc : s.ppu_memwrite <;>
    by_cases hw : s.writepages (((a >>> 10) &&& 0xF) % 256) = 0 <;>
    by_cases ha : a < 0x2000 <;>
    cases hf : s.writefuncs (((a >>> 10) &&& 0xF) % 256) <;>
    cases hl : s.log_unhandled <;>
    simp [call_memwrite, write_ppu_memory, log_call, hc, hw, ha, hf, hl]

theorem call_memwrite_regs (s : Ppu) (a d : Nat) :
    (call_memwrite s a d).scroll = s.scroll ∧ (call_memwrite s a d).control0 = s.control0 := by
  rw [call_memwrite_frame]
  exact ⟨rfl, rfl⟩

theorem ppu_pal_write_regs (s : Ppu) (a d : Nat) :
    (ppu_pal_write s a d).scroll = s.scroll ∧ (ppu_pal_write s a d).control0 = s.control0 :=
  ⟨rfl, rfl⟩

theorem pal_write_loop_regs (d : Nat) :
    ∀ (n i : Nat) (s : Ppu),
      (pal_write_loop d n i s).scroll = s.scroll ∧
      (pal_write_loop d n i s).control0 = s.control0 := by
  intro n
  induction n with
  | zero => intro i s; exact ⟨rfl, rfl⟩
  | succ n ih =>
    intro i s
    rw [pal_write_loop]
    exact ⟨(ih (i + 1) _).1.trans (ppu_pal_write_regs s _ d).1,
      (ih (i + 1) _).2.trans (ppu_pal_write_regs s _ d).2⟩

theorem ppu_write_data_regs (s : Ppu) (d : Nat) :
    (ppu_write s 7 d).scroll = ((s.scroll + stride s) % 2 ^ 32) &&& 0x7FFF ∧
    (ppu_write s 7 d).control0 = s.control0 := by
  rw [ppu_write_data s 7 d (by decide)]
  show (scroll_inc _).scroll &&& 0x7FFF = _ ∧ (scroll_inc _).control0 = _
  have key : ∀ t : Ppu, t.scroll = s.scroll → t.control0 = s.control0 →
      (scroll_inc t).scroll &&& 0x7FFF = ((s.scroll + stride s) % 2 ^ 32) &&& 0x7FFF ∧
      (scroll_inc t).control0 = s.control0 := by
    intro t h1 h2
    rw [(scroll_inc_regs t).1, (scroll_inc_regs t).2, h1, h2]
    simp only [stride, h2, and_self]
  split_ifs
  · exact key _ (call_memwrite_regs _ _ _).1 (call_memwrite_regs _ _ _).2
  · exact key _ (pal_write_loop_regs d 8 0 _).1 (pal_write_loop_regs d 8 0 _).2
  · exact key _ rfl rfl
  · exact key _ rfl rfl

theorem ppu_read_data_regs (s : Ppu) :
    (ppu_read s 7).2.scroll = ((s.scroll &&& 0x7FFF) + stride s) % 2 ^ 32 ∧
    (ppu_read s 7).2.control0 = s.control0 := by
  rw [(ppu_read_data s 7 (by decide)).1]
  show (if s.control0 &&& 4 ≠ 0 then ((s.scroll &&& 0x7FFF) + 32) % 2 ^ 32
      else ((s.scroll &&& 0x7FFF) + 1) % 2 ^ 32) = _ ∧ s.control0 = s.control0
  unfold stride
  split_ifs <;> exact ⟨rfl, rfl⟩

theorem stride_le (s : Ppu) : stride s ≤ 32 := by
  unfold stride; split_ifs <;> omega

/-- Every data-port access advances V by the stride modulo 2^15; a write
leaves V itself below 2^15, a read leaves it at most the stride above. -/
theorem data_access_step (s : Ppu) (x : Access) (hx : is_data_access x = true) :
    (step s x).scroll % 0x8000 = (s.scroll + stride s) % 0x8000 ∧
    (step s x).control0 = s.control0 := by
  have hs := stride_le s
  cases x with
  | read a =>
    have ha : a = 7 := by simpa [is_data_access] using hx
    subst ha
    refine ⟨?_, (ppu_read_data_regs s).2⟩
    show (ppu_read s 7).2.scroll % 0x8000 = _
    rw [(ppu_read_data_regs s).1, and_7FFF_mod]
    omega
  | write a d =>
    have ha : a = 7 := by simpa [is_data_access] using hx
    subst ha
    refine ⟨?_, (ppu_write_data_regs s d).2⟩
    show (ppu_write s 7 d).scroll % 0x8000 = _
    rw [(ppu_write_data_regs s d).1, and_7FFF_mod]
    omega

/-- After N data-port accesses V is congruent to `V0 + N * step` modulo 2^15. -/
theorem data_access_stride (l : List Access) :
    ∀ s : Ppu, (∀ x ∈ l, is_data_access x = true) →
      (run s l).scroll % 0x8000 = (s.scroll + l.length * stride s) % 0x8000 ∧
      (run s l).control0 = s.control0 := by
  induction l with
  | nil => intro s _; simp [run]
  | cons x l ih =>
    intro s hl
    have hx := data_access_step s x (hl x (List.mem_cons_self _ _))
    have hrest := ih (step s x) (fun y hy => hl y (List.mem_cons_of_mem _ hy))
    have hst : stride (step s x) = stride s := by unfold stride; rw [hx.2]
    have hrun : run s (x :: l) = run (step s x) l := rfl
    rw [hrun, hrest.2, hx.2, hrest.1, hst, List.length_cons]
    refine ⟨?_, rfl⟩
    rw [Nat.add_mod, hx.1, ← Nat.add_mod]
    congr 1
    ring

theorem ppu_write_addr_pair (s : Ppu) (hi lo : Nat) (htog : s.toggle = 0)
    (hT : s.tmpscroll < 0x10000) (hlo : lo < 256) :
    ppu_write (ppu_write s 6 hi) 6 lo =
      { s with
        buf := lo,
        tmpscroll := ((hi &&& 0x7F) <<< 8) ||| lo,
        scroll := ((hi &&& 0x7F) <<< 8) ||| lo,
        toggle := 0,
        busaddr := ((hi &&& 0x7F) <<< 8) ||| lo } := by
  have hb := addr_bits s.tmpscroll hi lo hT hlo
  rw [ppu_write_addr _ 6 lo (by decide), ppu_write_addr s 6 hi (by decide)]
  simp only [htog, if_true]
  simp only [one_ne_zero, if_false]
  rw [hb]

theorem data_write_vram (s : Ppu) (D : Nat) (h1 : 0x2000 ≤ s.scroll) (h2 : s.scroll < 0x3F00)
    (hb : s.ppu_memwrite = false) (hw : s.writepages (s.scroll >>> 10) ≠ 0)
    (hc : s.control0 &&& 4 = 0) :
    ppu_write s 7 D =
      { s with
        buf := D,
        mem := Function.update s.mem (s.writepages (s.scroll >>> 10) + (s.scroll &&& 0x3FF)) D,
        scroll := ((s.scroll + 1) % 2 ^ 32) &&& 0x7FFF,
        trace := s.trace ++ [Event.memwrite s.scroll D] } := by
  have hp : ((s.scroll >>> 10) &&& 0xF) % 256 = s.scroll >>> 10 := by
    rw [page_index_u8, page_index_of_lt _ (by omega)]
  have hlt : ¬ s.scroll < 0x2000 := by omega
  rw [ppu_write_data s 7 D (by decide), if_pos h2]
  unfold call_memwrite write_ppu_memory scroll_inc
  simp only [log_call, hb, hp]
  simp [hw, hlt, hc]

theorem call_memread_builtin (s : Ppu) (a : Nat) (hb : s.ppu_memread = none)
    (hr : s.readpages (a >>> 10) ≠ 0) :
    (call_memread s a).1 = s.mem (s.readpages (a >>> 10) + (a &&& 0x3FF)) := by
  unfold call_memread read_ppu_memory
  simp [log_call, hb, hr]

theorem not_palette_of_lt (v : Nat) (h : v < 0x3F00) : ¬ (v &&& 0x7FFF) &&& 0x3F00 = 0x3F00 := by
  intro h'
  have h1 : (v &&& 0x7FFF) &&& 0x3F00 ≤ v &&& 0x7FFF := Nat.and_le_left
  have h2 : v &&& 0x7FFF ≤ v := Nat.and_le_left
  omega

/-- Reading the data port outside the palette window returns the read-ahead byte. -/
theorem data_read_latched (s : Ppu) (h : s.scroll < 0x3F00) :
    (ppu_read s 7).1 = s.latch ∧
    (ppu_read s 7).2.latch = (call_memread s s.scroll).1 := by
  obtain ⟨hst, hret⟩ := ppu_read_data s 7 (by decide)
  rw [hret, hst]
  have hv : s.scroll &&& 0x7FFF = s.scroll := and_7FFF_of_lt _ (by omega)
  refine ⟨?_, ?_⟩
  · show (if (s.scroll &&& 0x7FFF) &&& 0x3F00 = 0x3F00 then _ else s.latch) = s.latch
    rw [if_neg (not_palette_of_lt _ h)]
  · show (call_memread s (s.scroll &&& 0x7FFF)).1 = _
    rw [hv]

theorem write_ppu_memory_chr (s : Ppu) (addr d : Nat) (ha : addr < 0x2000)
    (hw : s.writepages ((addr >>> 10) &&& 0xF) ≠ 0) :
    (write_ppu_memory s addr d).mem =
      Function.update s.mem (s.writepages ((addr >>> 10) &&& 0xF) + (addr &&& 0x3FF)) d ∧
    (write_ppu_memory s addr d).cachemem =
      Function.update
        (Function.update s.cachemem
          (s.cachepages ((addr >>> 10) &&& 0xF) + (addr &&& 0x3F0) / 8)
          (cache_tile (tile_bytes (write_ppu_memory s addr d).mem
            (s.readpages ((addr >>> 10) &&& 0xF) + (addr &&& 0x3F0)))))
        (s.cachepages_hflip ((addr >>> 10) &&& 0xF) + (addr &&& 0x3F0) / 8)
        (cache_tile_hflip (tile_bytes (write_ppu_memory s addr d).mem
            (s.readpages ((addr >>> 10) &&& 0xF) + (addr &&& 0x3F0)))) ∧
    (write_ppu_memory s addr d).trace =
      s.trace ++
        [Event.cache_tile (s.readpages ((addr >>> 10) &&& 0xF) + (addr &&& 0x3F0))
           (s.cachepages ((addr >>> 10) &&& 0xF) + (addr &&& 0x3F0) / 8),
         Event.cache_tile_hflip (s.readpages ((addr >>> 10) &&& 0xF) + (addr &&& 0x3F0))
           (s.cachepages_hflip ((addr >>> 10) &&& 0xF) + (addr &&& 0x3F0) / 8)] := by
  unfold write_ppu_memory
  simp only [page_index_u8]
  rw [if_pos hw, if_pos ha]
  refine ⟨rfl, rfl, ?_⟩
  simp [log_call]

theorem write_ppu_memory_high (s : Ppu) (addr d : Nat) (ha : 0x2000 ≤ addr) :
    (write_ppu_memory s addr d).cachemem = s.cachemem ∧
    (∀ e ∈ (write_ppu_memory s addr d).trace.drop s.trace.length,
      (∀ a b, e ≠ Event.cache_tile a b) ∧ (∀ a b, e ≠ Event.cache_tile_hflip a b)) ∧
    (s.writepages ((addr >>> 10) &&& 0xF) ≠ 0 →
      write_ppu_memory s addr d =
        { s with
          mem := Function.update s.mem
            (s.writepages ((addr >>> 10) &&& 0xF) + (addr &&& 0x3FF)) d }) := by
  have hlt : ¬ addr < 0x2000 := by omega
  unfold write_ppu_memory
  simp only [page_index_u8]
  by_cases hw : s.writepages ((addr >>> 10) &&& 0xF) ≠ 0
  · rw [if_pos hw, if_neg hlt]
    simp
  · rw [if_neg hw]
    cases hf : s.writefuncs ((addr >>> 10) &&& 0xF) <;> cases hl : s.log_unhandled <;>
      simp [log_call, hw]

theorem write_then_rewind_state (s : Ppu) (addr D : Nat)
    (ha1 : 0x2000 ≤ addr) (ha2 : addr < 0x3F00)
    (hw : s.writepages (addr >>> 10) ≠ 0)
    (hwb : s.ppu_memwrite = false)
    (hc : s.control0 &&& 4 = 0) (htog : s.toggle = 0) (hT : s.tmpscroll < 0x10000) :
    run s (write_then_rewind addr D) =
      { s with
        buf := addr &&& 0xFF,
        tmpscroll := addr,
        scroll := addr,
        toggle := 0,
        busaddr := addr,
        mem := Function.update s.mem (s.writepages (addr >>> 10) + (addr &&& 0x3FF)) D,
        trace := s.trace ++ [Event.memwrite addr D] } := by
  have hlo : addr &&& 0xFF < 256 := lt_of_le_of_lt Nat.and_le_right (by norm_num)
  have hX := addr_recompose addr (by omega)
  have e2 := ppu_write_addr_pair s (addr >>> 8) (addr &&& 0xFF) htog hT hlo
  rw [hX] at e2
  have e3 := data_write_vram (ppu_write (ppu_write s 6 (addr >>> 8)) 6 (addr &&& 0xFF)) D
    (by rw [e2]; exact ha1) (by rw [e2]; exact ha2) (by rw [e2]; exact hwb)
    (by rw [e2]; exact hw) (by rw [e2]; exact hc)
  have e5 := ppu_write_addr_pair
    (ppu_write (ppu_write (ppu_write s 6 (addr >>> 8)) 6 (addr &&& 0xFF)) 7 D)
    (addr >>> 8) (addr &&& 0xFF) (by rw [e3, e2]) (by rw [e3, e2]; show addr < _; omega) hlo
  rw [hX] at e5
  show ppu_write (ppu_write (ppu_write (ppu_write (ppu_write s 6 (addr >>> 8)) 6
    (addr &&& 0xFF)) 7 D) 6 (addr >>> 8)) 6 (addr &&& 0xFF) = _
  rw [e5, e3, e2]

/-! ## Frames and traces -/

theorem pal_write_loop_frame (d : Nat) :
    ∀ (n i : Nat) (s : Ppu),
      pal_write_loop d n i s =
        { s with
          palette := (pal_write_loop d n i s).palette,
          trace := (pal_write_loop d n i s).trace } := by
  intro n
  induction n with
  | zero => intro i s; rfl
  | succ n ih =>
    intro i s
    rw [pal_write_loop, ih (i + 1) (ppu_pal_write s (i * 4) d)]
    rfl

theorem scroll_inc_frame (s : Ppu) : scroll_inc s = { s with scroll := (scroll_inc s).scroll } := by
  unfold scroll_inc
  split_ifs <;> rfl

/-- A data-port write changes nothing but `buf`, V, the palette, the byte and
cache memories and the trace. -/
theorem ppu_write_data_frame (s : Ppu) (a d : Nat) (h : a &&& 7 = 7) :
    ppu_write s a d =
      { s with
        buf := d,
        scroll := (ppu_write s a d).scroll,
        palette := (ppu_write s a d).palette,
        mem := (ppu_write s a d).mem,
        cachemem := (ppu_write s a d).cachemem,
        trace := (ppu_write s a d).trace } := by
  have key : ∀ (t : Ppu) (x : Nat),
      t = { s with buf := d, palette := t.palette, mem := t.mem, cachemem := t.cachemem,
                   trace := t.trace } →
      ({ scroll_inc t with scroll := x } : Ppu) =
        { s with
          buf := d,
          scroll := x,
          palette := t.palette,
          mem := t.mem,
          cachemem := t.cachemem,
          trace := t.trace } := by
    intro t x ht
    have e1 : ({ scroll_inc t with scroll := x } : Ppu) = { t with scroll := x } := by
      unfold scroll_inc
      split_ifs <;> rfl
    rw [e1]
    conv_lhs => rw [ht]
  have e := ppu_write_data s a d h
  split_ifs at e
  · have hP := e.trans (key (call_memwrite { s with buf := d } s.scroll d) _
      (by
        have hp : (call_memwrite { s with buf := d } s.scroll d).palette = s.palette := by
          rw [call_memwrite_frame]
        rw [hp]
        conv_lhs => rw [call_memwrite_frame]))
    conv_rhs => rw [hP]
    exact hP
  · have hP := e.trans (key (pal_write_loop d 8 0 { s with buf := d }) _
      (by
        have hm : (pal_write_loop d 8 0 { s with buf := d }).mem = s.mem := by
          rw [pal_write_loop_frame]
        have hc : (pal_write_loop d 8 0 { s with buf := d }).cachemem = s.cachemem := by
          rw [pal_write_loop_frame]
        rw [hm, hc]
        conv_lhs => rw [pal_write_loop_frame]))
    conv_rhs => rw [hP]
    exact hP
  · have hP := e.trans (key (ppu_pal_write { s with buf := d } (s.scroll &&& 0x1F) d) _ rfl)
    conv_rhs => rw [hP]
    exact hP
  · have hP := e.trans (key { s with buf := d } _ rfl)
    conv_rhs => rw [hP]
    exact hP

theorem and7_cases (w : Nat) :
    w &&& 7 = 0 ∨ w &&& 7 = 1 ∨ w &&& 7 = 2 ∨ w &&& 7 = 3 ∨ w &&& 7 = 4 ∨ w &&& 7 = 5 ∨
      w &&& 7 = 6 ∨ w &&& 7 = 7 := by
  have : w &&& 7 ≤ 7 := Nat.and_le_right
  omega

/-- Every register write leaves the written byte in `buf` and keeps `latch`. -/
theorem ppu_write_buf_latch (s : Ppu) (w d : Nat) :
    (ppu_write s w d).buf = d ∧ (ppu_write s w d).latch = s.latch := by
  rcases and7_cases w with h | h | h | h | h | h | h | h
  · rw [ppu_write_control0 s w d h]
    split_ifs <;> exact ⟨rfl, rfl⟩
  · unfold ppu_write; simp [h]
  · unfold ppu_write; simp [h]
  · unfold ppu_write; simp [h]
  · unfold ppu_write; simp [h]
  · rw [ppu_write_scroll s w d h]
    split_ifs <;> exact ⟨rfl, rfl⟩
  · rw [ppu_write_addr s w d h]
    split_ifs <;> exact ⟨rfl, rfl⟩
  · rw [ppu_write_data_frame s w d h]
    exact ⟨rfl, rfl⟩

/-- A read of offset 0, 1, 3, 5 or 6 returns `buf` and changes nothing. -/
theorem ppu_read_open_bus (s : Ppu) (r : Nat)
    (hr : r &&& 7 = 0 ∨ r &&& 7 = 1 ∨ r &&& 7 = 3 ∨ r &&& 7 = 5 ∨ r &&& 7 = 6) :
    ppu_read s r = (s.buf, s) := by
  unfold ppu_read
  rcases hr with h | h | h | h | h <;> simp [h]

/-- The built-in read routine on the 14-bit bus: below 0x4000 the page index
`addr >> 10` is `(addr >> 10) & 0xF`, a read page has priority over a handler,
an unmapped page reads 0, and only the trace can change. -/
theorem read_ppu_memory_routing (s : Ppu) (addr : Nat) (ha : addr < 0x4000) :
    addr >>> 10 = (addr >>> 10) &&& 0xF ∧ addr >>> 10 < 16 ∧
    (s.readpages (addr >>> 10) ≠ 0 →
      read_ppu_memory s addr = (s.mem (s.readpages (addr >>> 10) + (addr &&& 0x3FF)), s)) ∧
    (s.readpages (addr >>> 10) = 0 → ∀ f, s.readfuncs (addr >>> 10) = some f →
      (read_ppu_memory s addr).1 = f addr % 256) ∧
    (s.readpages (addr >>> 10) = 0 → s.readfuncs (addr >>> 10) = none →
      (read_ppu_memory s addr).1 = 0) := by
  have h2 : addr >>> 10 = addr / 1024 := Nat.shiftRight_eq_div_pow addr 10
  refine ⟨(page_index_of_lt addr ha).symm, by omega, ?_, ?_, ?_⟩
  · intro h
    unfold read_ppu_memory
    rw [if_pos h]
  · intro h f hf
    unfold read_ppu_memory
    simp [h, hf]
  · intro h hf
    unfold read_ppu_memory
    cases hl : s.log_unhandled <;> simp [h, hf, hl]

theorem write_ppu_memory_trace (s : Ppu) (a d : Nat) :
    ∃ rest, (write_ppu_memory s a d).trace = s.trace ++ rest ∧
      ∀ e ∈ rest, ∀ p q, e ≠ Event.memwrite p q := by
  by_cases hw : s.writepages ((a >>> 10) &&& 0xF) ≠ 0
  · by_cases ha : a < 0x2000
    · refine ⟨_, (write_ppu_memory_chr s a d ha hw).2.2, ?_⟩
      intro e he p q
      simp only [List.mem_cons, List.mem_singleton, List.not_mem_nil, or_false] at he
      rcases he with rfl | rfl <;> simp
    · refine ⟨[], ?_, by simp⟩
      rw [(write_ppu_memory_high s a d (by omega)).2.2 hw]
      simp
  · have hw0 : s.writepages ((a >>> 10) &&& 0xF) = 0 := by simpa using hw
    unfold write_ppu_memory
    simp only [page_index_u8, hw0, ne_eq, not_true_eq_false, if_false]
    cases hf : s.writefuncs ((a >>> 10) &&& 0xF) <;> cases hl : s.log_unhandled
    · exact ⟨[], by simp, by simp⟩
    · exact ⟨[Event.log_write a d], by simp [log_call], by simp⟩
    · exact ⟨[Event.writefunc ((a >>> 10) &&& 0xF) a d], by simp [log_call], by simp⟩
    · exact ⟨[Event.writefunc ((a >>> 10) &&& 0xF) a d], by simp [log_call], by simp⟩

theorem call_memwrite_trace (s : Ppu) (a d : Nat) :
    ∃ rest, (call_memwrite s a d).trace = s.trace ++ Event.memwrite a d :: rest ∧
      ∀ e ∈ rest, ∀ p q, e ≠ Event.memwrite p q := by
  unfold call_memwrite
  cases hc : s.ppu_memwrite
  · obtain ⟨rest, h1, h2⟩ := write_ppu_memory_trace (log_call s (Event.memwrite a d)) a d
    refine ⟨rest, ?_, h2⟩
    simp only [log_call, hc, Bool.false_eq_true, if_false] at h1 ⊢
    rw [h1]
    simp
  · exact ⟨[], by simp [log_call, hc], by simp⟩

theorem pal_write_loop_trace (d : Nat) :
    ∀ (n i : Nat) (s : Ppu),
      ∃ rest, (pal_write_loop d n i s).trace = s.trace ++ rest ∧
        ∀ e ∈ rest, ∃ p q, e = Event.video_updatepalette p q := by
  intro n
  induction n with
  | zero => intro i s; exact ⟨[], by simp [pal_write_loop], by simp⟩
  | succ n ih =>
    intro i s
    obtain ⟨rest, h1, h2⟩ := ih (i + 1) (ppu_pal_write s (i * 4) d)
    refine ⟨Event.video_updatepalette (i * 4) d :: rest, ?_, ?_⟩
    · rw [pal_write_loop, h1]
      simp [ppu_pal_write, log_call]
    · intro e he
      rcases List.mem_cons.mp he with rfl | he
      · exact ⟨_, _, rfl⟩
      · exact h2 e he

theorem and_bit5 (x : Nat) :
    (x &&& 0x60) &&& 0x20 = x &&& 0x20 ∧ (x &&& 0x20 ≠ 0 → x &&& 0x20 = 0x20) := by
  have hlit : ∀ (b : Bool) (y : Nat), y.testBit 5 = b → y &&& 0x20 = if b then 0x20 else 0 := by
    intro b y hy
    apply Nat.eq_of_testBit_eq
    intro i
    simp only [Nat.testBit_and]
    by_cases hi : i < 8
    · interval_cases i <;> cases b <;> simp [hy, mask_bit 32]
    · have e : ∀ m : Nat, m < 2 ^ 8 → m.testBit i = false :=
        fun m hm => testBit_false_of_lt hm i (by omega)
      cases b <;> simp [e]
  constructor
  · rw [Nat.and_assoc]
    rfl
  · intro h
    cases hb : x.testBit 5
    · exact absurd (by simpa using hlit false x hb) h
    · simpa using hlit true x hb

/-- Outside the palette window a data-port read returns the read-ahead byte. -/
theorem ppu_read_data_latch (s : Ppu) (h : s.scroll &&& 0x3F00 ≠ 0x3F00) :
    (ppu_read s 7).1 = s.latch := by
  obtain ⟨hst, hret⟩ := ppu_read_data s 7 (by decide)
  rw [hret, hst]
  show (if (s.scroll &&& 0x7FFF) &&& 0x3F00 = 0x3F00 then _ else s.latch) = s.latch
  rw [and_7FFF_and _ _ (by decide), if_neg h]

theorem scroll_inc_trace (s : Ppu) : (scroll_inc s).trace = s.trace := by
  rw [scroll_inc_frame]

/-- The palette store on a data-port write at or above 0x3F00. -/
theorem ppu_write_data_palette (s : Ppu) (d : Nat) (hV : 0x3F00 ≤ s.scroll) :
    (ppu_write s 7 d).palette =
      if s.scroll &&& 0x0F = 0 then (pal_write_loop d 8 0 s).palette
      else if s.scroll &&& 3 ≠ 0 then Function.update s.palette (s.scroll &&& 0x1F) d
      else s.palette := by
  have hlt : ¬ s.scroll < 0x3F00 := by omega
  rw [ppu_write_data s 7 d (by decide)]
  show (scroll_inc _).palette = _
  rw [scroll_inc_palette, if_neg hlt]
  split_ifs
  · funext j
    rw [pal_write_loop_palette, pal_write_loop_palette]
  · rfl
  · rfl

theorem with_scroll_fields (t u : Ppu) (x : Nat) (hu : u = { scroll_inc t with scroll := x }) :
    u.mem = t.mem ∧ u.cachemem = t.cachemem ∧ u.trace = t.trace ∧ u.palette = t.palette := by
  subst hu
  unfold scroll_inc
  split_ifs <;> exact ⟨rfl, rfl, rfl, rfl⟩

/-! ## Claims -/

/-- C1. Read-after-write on VRAM.  For every `addr` in [0x2000, 0x3EFF)
whose 1KB page has the same non-null buffer installed as read page and as
write page, with the built-in bus routines in both slots, `CONTROL0 & 4 == 0`,
toggle 0 and T within 16 bits (T is a 15-bit quantity), and for every byte D:
after
`ppu_write(6, addr>>8); ppu_write(6, addr&0xFF); ppu_write(7, D);
ppu_write(6, addr>>8); ppu_write(6, addr&0xFF)` the first `ppu_read(7)`
returns the stale read-ahead byte and the second `ppu_read(7)` returns D. -/
theorem vram_read_after_write (s : Ppu) (addr D : Nat)
    (ha1 : 0x2000 ≤ addr) (ha2 : addr < 0x3EFF)
    (hw : s.writepages (addr >>> 10) ≠ 0)
    (hrw : s.readpages (addr >>> 10) = s.writepages (addr >>> 10))
    (hrb : s.ppu_memread = none) (hwb : s.ppu_memwrite = false)
    (hc : s.control0 &&& 4 = 0) (htog : s.toggle = 0) (hT : s.tmpscroll < 0x10000) :
    (ppu_read (run s (write_then_rewind addr D)) 7).1 = s.latch ∧
    (ppu_read (ppu_read (run s (write_then_rewind addr D)) 7).2 7).1 = D := by
  have e := write_then_rewind_state s addr D ha1 (by omega) hw hwb hc htog hT
  have hscroll : (run s (write_then_rewind addr D)).scroll = addr := by rw [e]
  have hlatch : (run s (write_then_rewind addr D)).latch = s.latch := by rw [e]
  have hr1 := data_read_latched (run s (write_then_rewind addr D)) (by rw [hscroll]; omega)
  have hmem : (call_memread (run s (write_then_rewind addr D)) addr).1 = D := by
    rw [call_memread_builtin _ _ (by rw [e]; exact hrb) (by rw [e]; show s.readpages _ ≠ 0; rw [hrw]; exact hw)]
    rw [e]
    show Function.update s.mem _ D (s.readpages (addr >>> 10) + (addr &&& 0x3FF)) = D
    rw [hrw, Function.update_same]
  have hscroll2 : (ppu_read (run s (write_then_rewind addr D)) 7).2.scroll = addr + 1 := by
    rw [(ppu_read_data_regs _).1, hscroll, and_7FFF_of_lt _ (by omega)]
    have : stride (run s (write_then_rewind addr D)) = 1 := by
      unfold stride
      rw [e]
      show (if s.control0 &&& 4 ≠ 0 then 32 else 1) = 1
      rw [if_neg (by simpa using hc)]
    rw [this]
    omega
  have hr2 := data_read_latched (ppu_read (run s (write_then_rewind addr D)) 7).2
    (by rw [hscroll2]; omega)
  refine ⟨hr1.1.trans hlatch, ?_⟩
  rw [hr2.1, hr1.2, hscroll, hmem]

/-- Witness for C1: page 8, addr 0x2000, D = 0xA5. -/
theorem vram_read_after_write_witness :
    (ppu_read (run nametable_ram (write_then_rewind 0x2000 0xA5)) 7).1 = 0x11 ∧
    (ppu_read (ppu_read (run nametable_ram (write_then_rewind 0x2000 0xA5)) 7).2 7).1 = 0xA5 :=
  vram_read_after_write nametable_ram 0x2000 0xA5 (by decide) (by decide) (by decide)
    (by decide) rfl rfl (by decide) rfl (by decide)

/-- C2, evaluated where it fails.  One `ppu_read(7)` at V0 = 0x7FFF with
stride 1 leaves V = 0x8000, not `(V0 + 1) & 0x7FFF = 0`: the read path masks V
before the bus access and not after the increment, while `ppu_write(7, d)` at
the same V0 leaves V = 0.  A data write that follows the read finds
`V >= 0x3F00` and is taken as a palette write (eight palette updates, no bus
write) instead of a bus write to address 0. -/
theorem data_read_leaves_scroll_unmasked :
    (ppu_read scroll_top 7).2.scroll = 0x8000 ∧
    (scroll_top.scroll + 1 * stride scroll_top) &&& 0x7FFF = 0 ∧
    (ppu_write scroll_top 7 0).scroll = 0 ∧
    (ppu_write (ppu_read scroll_top 7).2 7 0x30).palette 0 = 0x30 ∧
    (ppu_write (ppu_read scroll_top 7).2 7 0x30).trace =
      (ppu_read scroll_top 7).2.trace ++
        [Event.video_updatepalette 0 0x30, Event.video_updatepalette 4 0x30,
         Event.video_updatepalette 8 0x30, Event.video_updatepalette 12 0x30,
         Event.video_updatepalette 16 0x30, Event.video_updatepalette 20 0x30,
         Event.video_updatepalette 24 0x30, Event.video_updatepalette 28 0x30] := by
  decide

/-- C3. Palette write rules through register 7.  For every V at or above
0x3F00 (so for every V in the palette window 0x3F00..0x3FFF) and every byte D,
after `ppu_write(7, D)` the palette equals the old palette except that (a) if
`V & 0x0F == 0` (slots 0x00 and 0x10) the eight entries 0, 4, ..., 28 hold D;
(b) else if `V & 3 != 0` exactly entry `V & 0x1F` holds D; (c) otherwise
(`V & 0x1F` one of 4, 8, 12, 0x14, 0x18, 0x1C) the palette is unchanged. -/
theorem palette_write_rules (s : Ppu) (D : Nat) (hV : 0x3F00 ≤ s.scroll) :
    (s.scroll &&& 0x0F = 0 →
      (s.scroll &&& 0x1F = 0 ∨ s.scroll &&& 0x1F = 0x10) ∧
      ∀ i, (ppu_write s 7 D).palette i =
        if i ∈ [0, 4, 8, 12, 16, 20, 24, 28] then D else s.palette i) ∧
    (s.scroll &&& 0x0F ≠ 0 → s.scroll &&& 3 ≠ 0 →
      (ppu_write s 7 D).palette = Function.update s.palette (s.scroll &&& 0x1F) D) ∧
    (s.scroll &&& 0x0F ≠ 0 → s.scroll &&& 3 = 0 →
      (ppu_write s 7 D).palette = s.palette ∧
      s.scroll &&& 0x1F ∈ [4, 8, 12, 0x14, 0x18, 0x1C]) := by
  have hlt : ¬ s.scroll < 0x3F00 := by omega
  rw [ppu_write_data s 7 D (by decide)]
  show (_ → _ ∧ ∀ i, (scroll_inc _).palette i = _) ∧
    (_ → _ → (scroll_inc _).palette = _) ∧ (_ → _ → (scroll_inc _).palette = _ ∧ _)
  rw [scroll_inc_palette, if_neg hlt]
  refine ⟨?_, ?_, ?_⟩
  · intro h0
    refine ⟨(low_nibble_cases s.scroll).1 h0, ?_⟩
    intro i
    rw [if_pos h0, pal_write_loop_palette]
    have : (∃ k, k < 8 ∧ i = (0 + k) * 4) ↔ i ∈ [0, 4, 8, 12, 16, 20, 24, 28] := by
      simp only [List.mem_cons, List.mem_singleton, List.not_mem_nil, or_false]
      constructor
      · rintro ⟨k, hk, rfl⟩; omega
      · intro h; exact ⟨i / 4, by omega, by omega⟩
    simp only [this]
  · intro h0 h3
    rw [if_neg h0, if_pos h3, ppu_pal_write_palette]
  · intro h0 h3
    refine ⟨?_, (low_nibble_cases s.scroll).2 h0 h3⟩
    rw [if_neg h0, if_neg (by simpa using h3)]

/-- Witness for C3: V = 0x3F00, D = 0x30 fills entries 0, 4, ..., 28 with 0x30. -/
theorem palette_write_rules_witness :
    0x3F00 ≤ palette_base.scroll ∧ palette_base.scroll &&& 0x0F = 0 ∧
    (∀ i, (ppu_write palette_base 7 0x30).palette i =
      if i ∈ [0, 4, 8, 12, 16, 20, 24, 28] then 0x30 else palette_base.palette i) :=
  ⟨by decide, by decide,
    ((palette_write_rules palette_base 0x30 (by decide)).1 (by decide)).2⟩

/-- C4. Palette reads are unbuffered.  For every state with
`V & 0x3F00 == 0x3F00`, a single `ppu_read(7)` returns `palette[V & 0x1F]`
whatever `buf` and `latch` held before, and the same read loads the
read-ahead byte `latch`, which later register-7 reads return, with the byte
the bus read slot returns for address `V & 0x7FFF`, which is V itself for
every 15-bit V. -/
theorem palette_read_unbuffered (s : Ppu) (hpal : s.scroll &&& 0x3F00 = 0x3F00) :
    (ppu_read s 7).1 = ppu_pal_read s (s.scroll &&& 0x1F) ∧
    (ppu_read s 7).2.buf = ppu_pal_read s (s.scroll &&& 0x1F) ∧
    (ppu_read s 7).2.latch = (call_memread s (s.scroll &&& 0x7FFF)).1 ∧
    (s.scroll < 0x8000 → (ppu_read s 7).2.latch = (call_memread s s.scroll).1) := by
  obtain ⟨hst, hret⟩ := ppu_read_data s 7 (by decide)
  have h1 : (s.scroll &&& 0x7FFF) &&& 0x3F00 = 0x3F00 := by
    rw [and_7FFF_and _ _ (by decide), hpal]
  have h2 : (s.scroll &&& 0x7FFF) &&& 0x1F = s.scroll &&& 0x1F :=
    and_7FFF_and _ _ (by decide)
  have hbuf : (ppu_read s 7).2.buf = ppu_pal_read s (s.scroll &&& 0x1F) := by
    rw [hst]
    simp only [h1, h2, if_true, ppu_pal_read]
  have hl : (ppu_read s 7).2.latch = (call_memread s (s.scroll &&& 0x7FFF)).1 := by
    rw [hst]
  refine ⟨hret.trans hbuf, hbuf, hl, ?_⟩
  intro hlt
  rw [hl, and_7FFF_of_lt _ hlt]

/-- Witness for C4: V = 0x3F05 returns palette entry 5 at once and loads the
read-ahead byte from the page behind the palette. -/
theorem palette_read_unbuffered_witness :
    palette_peek.scroll &&& 0x3F00 = 0x3F00 ∧
    (ppu_read palette_peek 7).1 = 0x2A ∧
    (ppu_read palette_peek 7).2.latch = 0x77 :=
  ⟨by decide, (palette_read_unbuffered palette_peek (by decide)).1,
    (palette_read_unbuffered palette_peek (by decide)).2.2.1⟩

/-- C5. NMI suppression on a STATUS read.  For every state, `ppu_read(2)`
(i) at scanline 241, line-cycle 1 returns a byte whose bit 7 is 0 and makes
exactly one call, to `cpu_clear_nmi`; (ii) at scanline 241, line-cycle 2 or 3
makes exactly one call, to `cpu_clear_nmi`, and returns bit 7 equal to bit 7 of
STATUS before the read; (iii) at every other (scanline, line-cycle) makes no
call at all and returns bit 7 equal to bit 7 of STATUS before the read.  In
every case the calls made are none or one `cpu_clear_nmi`, so `cpu_set_nmi` is
never called. -/
theorem status_read_nmi_suppression (s : Ppu) :
    (s.scanline = 241 → s.linecycles = 1 →
      (ppu_read s 2).1 &&& 0x80 = 0 ∧
      (ppu_read s 2).2.trace = s.trace ++ [Event.cpu_clear_nmi]) ∧
    (s.scanline = 241 → (s.linecycles = 2 ∨ s.linecycles = 3) →
      (ppu_read s 2).2.trace = s.trace ++ [Event.cpu_clear_nmi] ∧
      (ppu_read s 2).1 &&& 0x80 = s.status &&& 0x80) ∧
    (¬ (s.scanline = 241 ∧ 1 ≤ s.linecycles ∧ s.linecycles ≤ 3) →
      (ppu_read s 2).2.trace = s.trace ∧
      (ppu_read s 2).1 &&& 0x80 = s.status &&& 0x80) ∧
    ((ppu_read s 2).2.trace = s.trace ∨
      (ppu_read s 2).2.trace = s.trace ++ [Event.cpu_clear_nmi]) := by
  obtain ⟨-, -, -, hret, htr⟩ := ppu_read_status s 2 (by decide)
  rw [hret, htr]
  refine ⟨?_, ?_, ?_, ?_⟩
  · intro hs hc
    have h13 : 1 ≤ s.linecycles ∧ s.linecycles ≤ 3 := by omega
    simp only [hs, hc, h13, and_self, if_true, true_and]
    exact ⟨status_bit7_masked _, by simp [hc]⟩
  · intro hs hc
    have h13 : 1 ≤ s.linecycles ∧ s.linecycles ≤ 3 := by omega
    have h1 : ¬ s.linecycles = 1 := by omega
    simp only [hs, h13, h1, and_self, and_false, if_true, if_false, true_and]
    exact status_bit7 _ _
  · intro hn
    have h1 : ¬ (s.scanline = 241 ∧ s.linecycles = 1) := by
      rintro ⟨h, h'⟩; exact hn ⟨h, by omega⟩
    simp only [hn, h1, if_false, true_and]
    exact status_bit7 _ _
  · split_ifs <;> simp

/-- Witness for C5: CONTROL0 = 0x80, STATUS bit 7 set, read at (241, 1). -/
theorem status_read_nmi_suppression_witness :
    vblank_start.scanline = 241 ∧ vblank_start.linecycles = 1 ∧
    (ppu_read vblank_start 2).1 &&& 0x80 = 0 ∧
    (ppu_read vblank_start 2).2.trace = vblank_start.trace ++ [Event.cpu_clear_nmi] :=
  ⟨rfl, rfl, (status_read_nmi_suppression vblank_start).1 rfl rfl⟩

/-- C6. Reading STATUS clears bit 7 and the write toggle.  For every state
reached from a state whose temporary scroll word fits its 32-bit storage by
any finite sequence of byte writes to offsets 5 and 6, `ppu_read(2)` leaves
STATUS bit 7 clear and the toggle at 0, and the next `ppu_write(5, d)` is
handled as a first write: fine-X becomes `d & 7`, the low five bits of T become
`d >> 3` while all higher bits of T are kept, and the toggle becomes 1. -/
theorem status_read_resets_toggle (s0 : Ppu) (ws : List Access) (d : Nat)
    (hT : s0.tmpscroll < 2 ^ 32) (hws : ∀ x ∈ ws, is_latch_write x = true)
    (hd : d < 256) :
    (ppu_read (run s0 ws) 2).2.status &&& 0x80 = 0 ∧
    (ppu_read (run s0 ws) 2).2.toggle = 0 ∧
    (ppu_write (ppu_read (run s0 ws) 2).2 5 d).scrollx = d &&& 7 ∧
    (ppu_write (ppu_read (run s0 ws) 2).2 5 d).tmpscroll % 32 = d >>> 3 ∧
    (ppu_write (ppu_read (run s0 ws) 2).2 5 d).tmpscroll / 32 =
      (ppu_read (run s0 ws) 2).2.tmpscroll / 32 ∧
    (ppu_write (ppu_read (run s0 ws) 2).2 5 d).toggle = 1 := by
  have hb := tmpscroll_bound_run ws s0 hT hws
  obtain ⟨htog, hst, htmp, -, -⟩ := ppu_read_status (run s0 ws) 2 (by decide)
  have hbits := low5_bits (ppu_read (run s0 ws) 2).2.tmpscroll d (by rw [htmp]; exact hb) hd
  refine ⟨?_, htog, ?_, ?_, ?_, ?_⟩
  · rw [hst]
    split_ifs with h
    · exact status_clear_bit7 _
    · rw [status_bit7] at h
      simpa using h
  · rw [ppu_write_scroll _ 5 d (by decide)]; simp [htog]
  · rw [ppu_write_scroll _ 5 d (by decide)]; simp only [htog, if_true]; exact hbits.1
  · rw [ppu_write_scroll _ 5 d (by decide)]; simp only [htog, if_true]; exact hbits.2
  · rw [ppu_write_scroll _ 5 d (by decide)]; simp [htog]

/-- Witness for C6: three latch writes from the zero state leave the toggle at
1; the STATUS read resets it, and the write of 0x7D is a first write. -/
theorem status_read_resets_toggle_witness :
    ppu_zero.tmpscroll < 2 ^ 32 ∧
    (∀ x ∈ [Access.write 5 0x7D, Access.write 6 0x3F, Access.write 5 0x5E],
      is_latch_write x = true) ∧
    0x7D < 256 ∧
    (ppu_read (run ppu_zero
      [Access.write 5 0x7D, Access.write 6 0x3F, Access.write 5 0x5E]) 2).2.toggle = 0 ∧
    (ppu_write (ppu_read (run ppu_zero
      [Access.write 5 0x7D, Access.write 6 0x3F, Access.write 5 0x5E]) 2).2 5 0x7D).toggle
        = 1 :=
  ⟨by decide, by decide, by decide,
    (status_read_resets_toggle ppu_zero
      [Access.write 5 0x7D, Access.write 6 0x3F, Access.write 5 0x5E] 0x7D
      (by decide) (by decide) (by decide)).2.1,
    (status_read_resets_toggle ppu_zero
      [Access.write 5 0x7D, Access.write 6 0x3F, Access.write 5 0x5E] 0x7D
      (by decide) (by decide) (by decide)).2.2.2.2.2⟩

/-- C7. Pattern-cache coherence.  For every `addr` below 0x2000 whose page
`p = (addr >> 10) & 0xF` has a non-null write page that is the same buffer as
its read page (the normal and hflip cache pages of `p` being two different
cache buffers) and every byte `d`, `write_ppu_memory(addr, d)` stores `d` at
offset `addr & 0x3FF` and then calls `cache_tile` and `cache_tile_hflip` once
each, on the containing 16-byte tile only: afterwards both cache entries of
that tile equal the decoders applied to the 16 bytes at page offset
`addr & 0x3F0` as they stand after the store, and every other cache entry is
unchanged.  For `addr >= 0x2000` no cache entry is recomputed. -/
theorem pattern_cache_coherence (s : Ppu) (addr d : Nat) (ha : addr < 0x2000)
    (hw : s.writepages ((addr >>> 10) &&& 0xF) ≠ 0)
    (hrw : s.readpages ((addr >>> 10) &&& 0xF) = s.writepages ((addr >>> 10) &&& 0xF))
    (hne : s.cachepages ((addr >>> 10) &&& 0xF) ≠ s.cachepages_hflip ((addr >>> 10) &&& 0xF)) :
    (write_ppu_memory s addr d).mem =
      Function.update s.mem (s.writepages ((addr >>> 10) &&& 0xF) + (addr &&& 0x3FF)) d ∧
    (write_ppu_memory s addr d).cachemem
        (s.cachepages ((addr >>> 10) &&& 0xF) + (addr &&& 0x3F0) / 8) =
      cache_tile (tile_bytes (write_ppu_memory s addr d).mem
        (s.writepages ((addr >>> 10) &&& 0xF) + (addr &&& 0x3F0))) ∧
    (write_ppu_memory s addr d).cachemem
        (s.cachepages_hflip ((addr >>> 10) &&& 0xF) + (addr &&& 0x3F0) / 8) =
      cache_tile_hflip (tile_bytes (write_ppu_memory s addr d).mem
        (s.writepages ((addr >>> 10) &&& 0xF) + (addr &&& 0x3F0))) ∧
    (∀ k, k ≠ s.cachepages ((addr >>> 10) &&& 0xF) + (addr &&& 0x3F0) / 8 →
      k ≠ s.cachepages_hflip ((addr >>> 10) &&& 0xF) + (addr &&& 0x3F0) / 8 →
      (write_ppu_memory s addr d).cachemem k = s.cachemem k) ∧
    (write_ppu_memory s addr d).trace =
      s.trace ++
        [Event.cache_tile (s.writepages ((addr >>> 10) &&& 0xF) + (addr &&& 0x3F0))
           (s.cachepages ((addr >>> 10) &&& 0xF) + (addr &&& 0x3F0) / 8),
         Event.cache_tile_hflip (s.writepages ((addr >>> 10) &&& 0xF) + (addr &&& 0x3F0))
           (s.cachepages_hflip ((addr >>> 10) &&& 0xF) + (addr &&& 0x3F0) / 8)] ∧
    (∀ (t : Ppu) (b e : Nat), 0x2000 ≤ b →
      (write_ppu_memory t b e).cachemem = t.cachemem ∧
      ∀ x ∈ (write_ppu_memory t b e).trace.drop t.trace.length,
        (∀ p q, x ≠ Event.cache_tile p q) ∧ (∀ p q, x ≠ Event.cache_tile_hflip p q)) := by
  obtain ⟨hmem, hcache, htrace⟩ := write_ppu_memory_chr s addr d ha hw
  rw [hrw] at hcache htrace
  have hne' : s.cachepages ((addr >>> 10) &&& 0xF) + (addr &&& 0x3F0) / 8 ≠
      s.cachepages_hflip ((addr >>> 10) &&& 0xF) + (addr &&& 0x3F0) / 8 := by
    intro h; exact hne (Nat.add_right_cancel h)
  refine ⟨hmem, ?_, ?_, ?_, htrace, ?_⟩
  · rw [hcache, Function.update_noteq hne', Function.update_same]
  · rw [hcache, Function.update_same]
  · intro k h1 h2
    rw [hcache, Function.update_noteq h2, Function.update_noteq h1]
  · intro t b e hb
    exact ⟨(write_ppu_memory_high t b e hb).1, (write_ppu_memory_high t b e hb).2.1⟩

/-- Witness for C7: storing 0xFF at CHR-RAM address 0 refreshes tile 0 in both
cache pages. -/
theorem pattern_cache_coherence_witness :
    (write_ppu_memory chr_ram 0 0xFF).mem 0x10000 = 0xFF ∧
    (write_ppu_memory chr_ram 0 0xFF).cachemem 0x100 =
      cache_tile (tile_bytes (write_ppu_memory chr_ram 0 0xFF).mem 0x10000) ∧
    (write_ppu_memory chr_ram 0 0xFF).cachemem 0x1000 =
      cache_tile_hflip (tile_bytes (write_ppu_memory chr_ram 0 0xFF).mem 0x10000) :=
  ⟨by rw [(pattern_cache_coherence chr_ram 0 0xFF (by decide) (by decide) (by decide)
      (by decide)).1]; exact Function.update_same _ _ _,
    (pattern_cache_coherence chr_ram 0 0xFF (by decide) (by decide) (by decide)
      (by decide)).2.1,
    (pattern_cache_coherence chr_ram 0 0xFF (by decide) (by decide) (by decide)
      (by decide)).2.2.1⟩

/-- C8. Scroll double-write.  For every state with toggle 0 and T = T0 below
0x8000 and all bytes d1, d2, after `ppu_write(5, d1); ppu_write(5, d2)` fine-X
is `d1 & 7`, T is `(T0 & 0x0C00) | (d1 >> 3) | ((d2 & 0xF8) << 2) |
((d2 & 7) << 12)`, the toggle is 0 and V is unchanged. -/
theorem scroll_double_write (s : Ppu) (d1 d2 : Nat) (htog : s.toggle = 0)
    (hT : s.tmpscroll < 0x8000) (h1 : d1 < 256) :
    (ppu_write (ppu_write s 5 d1) 5 d2).scrollx = d1 &&& 7 ∧
    (ppu_write (ppu_write s 5 d1) 5 d2).tmpscroll =
      (s.tmpscroll &&& 0x0C00) ||| (d1 >>> 3) ||| ((d2 &&& 0xF8) <<< 2) |||
        ((d2 &&& 7) <<< 12) ∧
    (ppu_write (ppu_write s 5 d1) 5 d2).toggle = 0 ∧
    (ppu_write (ppu_write s 5 d1) 5 d2).scroll = s.scroll := by
  rw [ppu_write_scroll _ 5 d2 (by decide), ppu_write_scroll s 5 d1 (by decide)]
  simp only [htog, if_true]
  refine ⟨?_, ?_, ?_, ?_⟩
  · simp
  · simp
    exact scroll_bits s.tmpscroll d1 d2 hT h1
  · simp
  · simp

/-- Witness for C8: T0 = 0, d1 = 0x7D, d2 = 0x5E gives fine-X 5 and T = 0x616F. -/
theorem scroll_double_write_witness :
    ppu_zero.toggle = 0 ∧ ppu_zero.tmpscroll < 0x8000 ∧ 0x7D < 256 ∧
    (ppu_write (ppu_write ppu_zero 5 0x7D) 5 0x5E).scrollx = 5 ∧
    (ppu_write (ppu_write ppu_zero 5 0x7D) 5 0x5E).tmpscroll = 0x616F :=
  ⟨rfl, by decide, by decide,
    (scroll_double_write ppu_zero 0x7D 0x5E rfl (by decide) (by decide)).1,
    (scroll_double_write ppu_zero 0x7D 0x5E rfl (by decide) (by decide)).2.1⟩

/-- C9. VRAM-address double-write.  For every state with toggle 0 and T below
0x8000 and all bytes hi, lo: after the first `ppu_write(6, hi)` alone V is
unchanged and the toggle is 1; after `ppu_write(6, hi); ppu_write(6, lo)` both
T and V equal `((hi & 0x7F) << 8) | lo`, whatever T and V were, and the toggle
is 0. -/
theorem vram_addr_double_write (s : Ppu) (hi lo : Nat) (htog : s.toggle = 0)
    (hT : s.tmpscroll < 0x8000) (hlo : lo < 256) :
    (ppu_write s 6 hi).scroll = s.scroll ∧
    (ppu_write s 6 hi).toggle = 1 ∧
    (ppu_write (ppu_write s 6 hi) 6 lo).tmpscroll = ((hi &&& 0x7F) <<< 8) ||| lo ∧
    (ppu_write (ppu_write s 6 hi) 6 lo).scroll = ((hi &&& 0x7F) <<< 8) ||| lo ∧
    (ppu_write (ppu_write s 6 hi) 6 lo).toggle = 0 := by
  have hb := addr_bits s.tmpscroll hi lo (by omega) hlo
  rw [ppu_write_addr _ 6 lo (by decide), ppu_write_addr s 6 hi (by decide)]
  simp only [htog, if_true]
  refine ⟨by simp, by simp, ?_, ?_, by simp⟩
  · simp
    exact hb
  · simp
    exact hb

/-- Witness for C9: hi = 0x3F, lo = 0x10 from the zero state give T = V = 0x3F10. -/
theorem vram_addr_double_write_witness :
    ppu_zero.toggle = 0 ∧ ppu_zero.tmpscroll < 0x8000 ∧ 0x10 < 256 ∧
    (ppu_write (ppu_write ppu_zero 6 0x3F) 6 0x10).tmpscroll = 0x3F10 ∧
    (ppu_write (ppu_write ppu_zero 6 0x3F) 6 0x10).scroll = 0x3F10 :=
  ⟨rfl, by decide, by decide,
    (vram_addr_double_write ppu_zero 0x3F 0x10 rfl (by decide) (by decide)).2.2.1,
    (vram_addr_double_write ppu_zero 0x3F 0x10 rfl (by decide) (by decide)).2.2.2.1⟩

/-- C10. NMI edge logic on a CONTROL0 write.  For every state and byte `data`,
the calls `ppu_write(0, data)` makes are: `cpu_set_nmi`, once, exactly when
`STATUS & 0x80`, `data & 0x80` and the previous `CONTROL0 & 0x80 == 0` hold on
the values before the write; then `cpu_clear_nmi`, once, exactly when
`data & 0x80 == 0`, the scanline is 241 and the line-cycle is below 4; the two
conditions exclude each other; afterwards CONTROL0 is `data` and T is
`(T_old & 0x73FF) | ((data & 3) << 10)`. -/
theorem control0_write_nmi_edge (s : Ppu) (data : Nat) :
    (ppu_write s 0 data).trace =
      s.trace ++
        (if s.status &&& 0x80 ≠ 0 ∧ data &&& 0x80 ≠ 0 ∧ s.control0 &&& 0x80 = 0
          then [Event.cpu_set_nmi] else []) ++
        (if data &&& 0x80 = 0 ∧ s.scanline = 241 ∧ s.linecycles < 4
          then [Event.cpu_clear_nmi] else []) ∧
    ¬ ((s.status &&& 0x80 ≠ 0 ∧ data &&& 0x80 ≠ 0 ∧ s.control0 &&& 0x80 = 0) ∧
       (data &&& 0x80 = 0 ∧ s.scanline = 241 ∧ s.linecycles < 4)) ∧
    (ppu_write s 0 data).control0 = data ∧
    (ppu_write s 0 data).tmpscroll =
      (s.tmpscroll &&& 0x73FF) ||| ((data &&& 3) <<< 10) := by
  rw [ppu_write_control0 s 0 data (by decide)]
  refine ⟨?_, ?_, rfl, rfl⟩
  · by_cases h1 : s.status &&& 0x80 ≠ 0 ∧ data &&& 0x80 ≠ 0 ∧ s.control0 &&& 0x80 = 0 <;>
      by_cases h2 : data &&& 0x80 = 0 ∧ s.scanline = 241 ∧ s.linecycles < 4 <;>
      simp [h1, h2, log_call]
  · rintro ⟨⟨-, h, -⟩, h', -⟩
    exact h h'

/-- C11, evaluated where it fails.  `read_ppu_memory` indexes the page tables
with `addr >> 10`, without the `& 0xF` that `write_ppu_memory` applies.  For
`addr = 0x4000`, which `ppu_read(7)` passes when V = 0x4000, the index is 16,
behind the last slot of the 16-slot tables, not page 0: the result is whatever
slot 16 gives, so with page 0 mapped onto a byte 0x5A and nothing behind the
table the read gives 0, not 0x5A, while a write to 0x4000 goes to page 0. -/
theorem read_page_index_unmasked :
    0x4000 >>> 10 = 16 ∧ (0x4000 >>> 10) &&& 0xF = 0 ∧
    (∀ s : Ppu, (read_ppu_memory s 0x4000).1 =
      if s.readpages 16 ≠ 0 then s.mem (s.readpages 16)
      else match s.readfuncs 16 with
        | some f => f 0x4000 % 256
        | none => 0) ∧
    mirror_probe.mem (mirror_probe.readpages ((0x4000 >>> 10) &&& 0xF) + (0x4000 &&& 0x3FF)) =
      0x5A ∧
    (read_ppu_memory mirror_probe 0x4000).1 = 0 ∧
    (ppu_read mirror_probe 7).2.latch = 0 ∧
    (ppu_read mirror_probe 7).2.trace = [Event.memread 0x4000] ∧
    (write_ppu_memory mirror_probe 0x4000 0x77).mem 0x10000 = 0x77 := by
  refine ⟨by decide, by decide, ?_, by decide, by decide, by decide, by decide, by decide⟩
  intro s
  have e10 : 0x4000 >>> 10 = 16 := by decide
  have e3FF : 0x4000 &&& 0x3FF = 0 := by decide
  unfold read_ppu_memory
  rw [e10, e3FF]
  by_cases h : s.readpages 16 = 0 <;> cases hf : s.readfuncs 16 <;>
    cases hl : s.log_unhandled <;> simp [h, hf, hl]

/-- C12. Bus-write routing.  For every `addr` and byte `d`, with
`page = (addr >> 10) & 0xF`: if the write page is non-null,
`write_ppu_memory(addr, d)` stores `d` at offset `addr & 0x3FF` of it and makes
no handler call, whether or not a handler is installed; if the write page is
null and a handler is installed, it calls the handler once with `(addr, d)` and
changes nothing itself; if both are null the write is dropped, every page
buffer, cache entry and register staying as it was (the only trace is the
optional log line). -/
theorem bus_write_routing (s : Ppu) (addr d : Nat) :
    (s.writepages ((addr >>> 10) &&& 0xF) ≠ 0 →
      (write_ppu_memory s addr d).mem =
        Function.update s.mem (s.writepages ((addr >>> 10) &&& 0xF) + (addr &&& 0x3FF)) d ∧
      ∀ e ∈ (write_ppu_memory s addr d).trace.drop s.trace.length,
        ∀ p a b, e ≠ Event.writefunc p a b) ∧
    (s.writepages ((addr >>> 10) &&& 0xF) = 0 → s.writefuncs ((addr >>> 10) &&& 0xF) = true →
      write_ppu_memory s addr d =
        { s with trace := s.trace ++ [Event.writefunc ((addr >>> 10) &&& 0xF) addr d] }) ∧
    (s.writepages ((addr >>> 10) &&& 0xF) = 0 → s.writefuncs ((addr >>> 10) &&& 0xF) = false →
      write_ppu_memory s addr d =
        { s with
          trace := s.trace ++ if s.log_unhandled then [Event.log_write addr d] else [] }) := by
  refine ⟨?_, ?_, ?_⟩
  · intro hw
    by_cases ha : addr < 0x2000
    · obtain ⟨hm, -, ht⟩ := write_ppu_memory_chr s addr d ha hw
      refine ⟨hm, ?_⟩
      rw [ht, List.drop_left]
      intro e he
      simp only [List.mem_cons, List.mem_singleton, List.not_mem_nil, or_false] at he
      rcases he with rfl | rfl <;> simp
    · rw [(write_ppu_memory_high s addr d (by omega)).2.2 hw]
      simp
  · intro hw hf
    unfold write_ppu_memory
    simp [page_index_u8, hw, hf, log_call]
  · intro hw hf
    unfold write_ppu_memory
    simp only [page_index_u8, hw, hf, ne_eq, not_true_eq_false, if_false, Bool.false_eq_true]
    split_ifs
    · rfl
    · show s = { s with trace := s.trace ++ [] }
      rw [List.append_nil]

/-- Witness for C12: a write to 0x2000 with only a handler on page 8 is one
handler call and nothing else. -/
theorem bus_write_routing_witness :
    handler_page.writepages ((0x2000 >>> 10) &&& 0xF) = 0 ∧
    handler_page.writefuncs ((0x2000 >>> 10) &&& 0xF) = true ∧
    write_ppu_memory handler_page 0x2000 0x55 =
      { handler_page with
        trace := handler_page.trace ++
          [Event.writefunc ((0x2000 >>> 10) &&& 0xF) 0x2000 0x55] } :=
  ⟨by decide, by decide, (bus_write_routing handler_page 0x2000 0x55).2.1 rfl rfl⟩

/-- C13 as stated fails: after `ppu_write(6, 0x10)` the byte that register
writes set and that reads of offset 0 return is 0x10, V is outside the palette
window, and `ppu_read(7)` returns 0x22, the read-ahead byte. -/
theorem data_read_not_written_byte :
    (ppu_write stale_latch 6 0x10).scroll &&& 0x3F00 ≠ 0x3F00 ∧
    (ppu_write stale_latch 6 0x10).buf = 0x10 ∧
    (ppu_read (ppu_write stale_latch 6 0x10) 0).1 = 0x10 ∧
    (ppu_read (ppu_write stale_latch 6 0x10) 7).1 = 0x22 ∧
    (ppu_read (ppu_write stale_latch 6 0x10) 7).1 ≠ (ppu_write stale_latch 6 0x10).buf := by
  decide

/-- C13, as the code has it.  For every state with V outside the palette
window (`V & 0x3F00 != 0x3F00`), `ppu_read(7)` returns the value the read-ahead
byte `latch` held immediately before the read.  `latch` is a second byte,
apart from `buf`: every register write sets `buf` to the written data and
leaves `latch` alone, and reads of offsets 0, 1, 3, 5 and 6 return `buf`; so
after `ppu_write(6, lo)`, with V still outside the window, the next
`ppu_read(7)` returns the `latch` from before the write. -/
theorem data_read_returns_latch (s : Ppu) (h : s.scroll &&& 0x3F00 ≠ 0x3F00) :
    (ppu_read s 7).1 = s.latch ∧
    (∀ w d, (ppu_write s w d).buf = d ∧ (ppu_write s w d).latch = s.latch) ∧
    (∀ r, (r &&& 7 = 0 ∨ r &&& 7 = 1 ∨ r &&& 7 = 3 ∨ r &&& 7 = 5 ∨ r &&& 7 = 6) →
      (ppu_read s r).1 = s.buf) ∧
    (∀ lo, (ppu_write s 6 lo).scroll &&& 0x3F00 ≠ 0x3F00 →
      (ppu_read (ppu_write s 6 lo) 7).1 = s.latch) := by
  refine ⟨ppu_read_data_latch s h, fun w d => ppu_write_buf_latch s w d, ?_, ?_⟩
  · intro r hr
    rw [ppu_read_open_bus s r hr]
  · intro lo hlo
    rw [ppu_read_data_latch _ hlo, (ppu_write_buf_latch s 6 lo).2]

/-- Witness for C13 as amended: with 0x22 in `latch`, the data-port read after
`ppu_write(6, 0x10)` returns 0x22. -/
theorem data_read_returns_latch_witness :
    stale_latch.scroll &&& 0x3F00 ≠ 0x3F00 ∧
    (ppu_read stale_latch 7).1 = 0x22 ∧
    (ppu_read (ppu_write stale_latch 6 0x10) 7).1 = 0x22 :=
  ⟨by decide, (data_read_returns_latch stale_latch (by decide)).1,
    (data_read_returns_latch stale_latch (by decide)).2.2.2 0x10 (by decide)⟩

/-- C14. Open-bus byte.  For every state, every write address `w`, every byte
`d` and every read address `r` with `r & 7` one of 0, 1, 3, 5, 6: after
`ppu_write(w, d)`, `ppu_read(r)` returns `d` and leaves the whole record as it
was - STATUS, CONTROL0, CONTROL1, OAMADDR, OAM, T, V, fine-X, toggle, `buf`,
palette and the trace of NMI calls included. -/
theorem open_bus_after_write (s : Ppu) (w d r : Nat)
    (hr : r &&& 7 = 0 ∨ r &&& 7 = 1 ∨ r &&& 7 = 3 ∨ r &&& 7 = 5 ∨ r &&& 7 = 6) :
    (ppu_read (ppu_write s w d) r).1 = d ∧
    (ppu_read (ppu_write s w d) r).2 = ppu_write s w d := by
  rw [ppu_read_open_bus _ r hr]
  exact ⟨(ppu_write_buf_latch s w d).1, rfl⟩

/-- Witness for C14: a write of 0x5E to 0x2005 is read back at 0x2006. -/
theorem open_bus_after_write_witness :
    (0x2006 &&& 7 = 0 ∨ 0x2006 &&& 7 = 1 ∨ 0x2006 &&& 7 = 3 ∨ 0x2006 &&& 7 = 5 ∨
      0x2006 &&& 7 = 6) ∧
    (ppu_read (ppu_write vblank_start 0x2005 0x5E) 0x2006).1 = 0x5E ∧
    (ppu_read (ppu_write vblank_start 0x2005 0x5E) 0x2006).2 =
      ppu_write vblank_start 0x2005 0x5E :=
  ⟨by decide, open_bus_after_write vblank_start 0x2005 0x5E 0x2006 (by decide)⟩

/-- C15 as stated fails: with STATUS = 0xA0 (bits 7 and 5 set), bit 5 of STATUS
is still set after `ppu_read(2)`. -/
theorem status_read_bit5_not_lost :
    overflow_status.status &&& 0x80 ≠ 0 ∧ overflow_status.status &&& 0x20 ≠ 0 ∧
    (ppu_read overflow_status 2).2.status = 0x20 ∧
    (ppu_read overflow_status 2).2.status &&& 0x20 ≠ 0 := by
  decide

/-- C15, as the code has it.  The STATUS clear-on-read mask is 0x60, which
keeps bits 5 and 6: for every state in which STATUS has bit 7 and bit 5 (sprite
overflow) set, after `ppu_read(2)` STATUS is `STATUS_old & 0x60`, so bit 5 is
still 1 and bit 7 is 0. -/
theorem status_read_keeps_bit5 (s : Ppu) (h7 : s.status &&& 0x80 ≠ 0)
    (h5 : s.status &&& 0x20 ≠ 0) :
    (ppu_read s 2).2.status = s.status &&& 0x60 ∧
    (ppu_read s 2).2.status &&& 0x20 = 0x20 ∧
    (ppu_read s 2).2.status &&& 0x80 = 0 := by
  obtain ⟨-, hst, -, -, -⟩ := ppu_read_status s 2 (by decide)
  rw [status_bit7, if_pos h7] at hst
  rw [hst]
  exact ⟨rfl, by rw [(and_bit5 s.status).1]; exact (and_bit5 s.status).2 h5,
    status_clear_bit7 _⟩

/-- Witness for C15 as amended: STATUS = 0xA0 becomes 0x20. -/
theorem status_read_keeps_bit5_witness :
    overflow_status.status &&& 0x80 ≠ 0 ∧ overflow_status.status &&& 0x20 ≠ 0 ∧
    (ppu_read overflow_status 2).2.status = 0xA0 &&& 0x60 :=
  ⟨by decide, by decide, (status_read_keeps_bit5 overflow_status (by decide) (by decide)).1⟩

/-- C16. Register-7 writes reach the bus only below 0x3F00.  For every state
and byte `d`: when `V < 0x3F00`, `ppu_write(7, d)` calls the bus write slot
exactly once, with `(V, d)`, and leaves the palette unchanged; when
`V >= 0x3F00`, every V in [0x4000, 0x7FFF] included, it never calls the bus
write slot: the only calls are palette updates, the store is the palette store
keyed on `V & 0x1F`, and no page buffer or pattern-cache entry changes and no
write handler is called. -/
theorem data_write_bus_gate (s : Ppu) (d : Nat) :
    (s.scroll < 0x3F00 →
      (ppu_write s 7 d).palette = s.palette ∧
      ∃ rest, (ppu_write s 7 d).trace = s.trace ++ Event.memwrite s.scroll d :: rest ∧
        ∀ e ∈ rest, ∀ p q, e ≠ Event.memwrite p q) ∧
    (0x3F00 ≤ s.scroll →
      (ppu_write s 7 d).mem = s.mem ∧
      (ppu_write s 7 d).cachemem = s.cachemem ∧
      (∃ rest, (ppu_write s 7 d).trace = s.trace ++ rest ∧
        ∀ e ∈ rest, ∃ p q, e = Event.video_updatepalette p q) ∧
      (ppu_write s 7 d).palette =
        if s.scroll &&& 0x0F = 0 then (pal_write_loop d 8 0 s).palette
        else if s.scroll &&& 3 ≠ 0 then Function.update s.palette (s.scroll &&& 0x1F) d
        else s.palette) := by
  have e := ppu_write_data s 7 d (by decide)
  refine ⟨?_, ?_⟩
  · intro hV
    rw [if_pos hV] at e
    obtain ⟨-, -, ht, hp⟩ := with_scroll_fields _ _ _ e
    obtain ⟨rest, h1, h2⟩ := call_memwrite_trace { s with buf := d } s.scroll d
    refine ⟨?_, rest, by rw [ht, h1], h2⟩
    rw [hp, call_memwrite_frame]
  · intro hV
    have hlt : ¬ s.scroll < 0x3F00 := by omega
    rw [if_neg hlt] at e
    refine ⟨?_, ?_, ?_, ppu_write_data_palette s d hV⟩
    · by_cases h0 : s.scroll &&& 0x0F = 0
      · rw [if_pos h0] at e
        rw [(with_scroll_fields _ _ _ e).1, pal_write_loop_frame]
      · rw [if_neg h0] at e
        by_cases h3 : s.scroll &&& 3 ≠ 0
        · rw [if_pos h3] at e
          rw [(with_scroll_fields _ _ _ e).1]
          rfl
        · rw [if_neg h3] at e
          rw [(with_scroll_fields _ _ _ e).1]
    · by_cases h0 : s.scroll &&& 0x0F = 0
      · rw [if_pos h0] at e
        rw [(with_scroll_fields _ _ _ e).2.1, pal_write_loop_frame]
      · rw [if_neg h0] at e
        by_cases h3 : s.scroll &&& 3 ≠ 0
        · rw [if_pos h3] at e
          rw [(with_scroll_fields _ _ _ e).2.1]
          rfl
        · rw [if_neg h3] at e
          rw [(with_scroll_fields _ _ _ e).2.1]
    · by_cases h0 : s.scroll &&& 0x0F = 0
      · rw [if_pos h0] at e
        rw [(with_scroll_fields _ _ _ e).2.2.1]
        exact pal_write_loop_trace d 8 0 { s with buf := d }
      · rw [if_neg h0] at e
        by_cases h3 : s.scroll &&& 3 ≠ 0
        · rw [if_pos h3] at e
          rw [(with_scroll_fields _ _ _ e).2.2.1]
          exact ⟨[Event.video_updatepalette (s.scroll &&& 0x1F) d], rfl,
            fun x hx => ⟨_, _, List.mem_singleton.mp hx⟩⟩
        · rw [if_neg h3] at e
          rw [(with_scroll_fields _ _ _ e).2.2.1]
          exact ⟨[], by simp, by simp⟩

/-- Witness for C16: at V = 0x4123 a data write makes one palette update, at
entry 3, and no bus write. -/
theorem data_write_bus_gate_witness :
    0x3F00 ≤ above_bus.scroll ∧
    (ppu_write above_bus 7 0x30).mem = above_bus.mem ∧
    (ppu_write above_bus 7 0x30).cachemem = above_bus.cachemem ∧
    (ppu_write above_bus 7 0x30).trace = [Event.video_updatepalette 3 0x30] :=
  ⟨by decide, (data_write_bus_gate above_bus 0x30).2 (by decide) |>.1,
    (data_write_bus_gate above_bus 0x30).2 (by decide) |>.2.1, by decide⟩

end Nesemu2
